import Mathlib

/-
Verification development for the robot-event triage pipeline
(backend/services/schema_service.py, validation_service.py,
history_service.py, triage_service.py, azure_ai_service.py and
backend/main.py).  The Python code is shallowly embedded: dictionaries
become structures with Option-valued fields, Python floats become exact
rationals represented as an (integer numerator, positive denominator)
pair so that every operation is kernel-computable, and the one external
call (the Azure "oracle") becomes an explicit input parameter.
-/

/-! ### Python string primitives

Python `str` values are Lean `String`s; the operations used by the code
(`lower`, `upper`, `strip`, `in`, `replace`) are re-implemented over the
character list so that they reduce inside the kernel.  `lower`/`upper`
are modelled on ASCII letters, which covers every string the services
manipulate. -/

def pyCharLower (c : Char) : Char :=
  if 'A' ≤ c ∧ c ≤ 'Z' then Char.ofNat (c.toNat + 32) else c

def pyCharUpper (c : Char) : Char :=
  if 'a' ≤ c ∧ c ≤ 'z' then Char.ofNat (c.toNat - 32) else c

/-- Python `s.lower()` (ASCII model). -/
def pyLower (s : String) : String := String.mk (s.data.map pyCharLower)

/-- Python `s.upper()` (ASCII model). -/
def pyUpper (s : String) : String := String.mk (s.data.map pyCharUpper)

/-- Python whitespace class (the characters `str.strip` and `\s` use). -/
def isPySpace (c : Char) : Bool :=
  c == ' ' || c == '\t' || c == '\n' || c == '\x0d' || c == '\x0b' || c == '\x0c'

/-- Python `s.strip()`. -/
def pyStrip (s : String) : String :=
  String.mk (((s.data.dropWhile isPySpace).reverse.dropWhile isPySpace).reverse)

def listInfix (n : List Char) : List Char → Bool
  | [] => n.isEmpty
  | c :: rest => n.isPrefixOf (c :: rest) || listInfix n rest

/-- Python `needle in hay` for strings. -/
def pyIn (needle hay : String) : Bool := listInfix needle.data hay.data

def replaceFuel (pat rep : List Char) : Nat → List Char → List Char
  | _, [] => []
  | 0, cs => cs
  | Nat.succ f, c :: rest =>
    if pat.isPrefixOf (c :: rest) && !pat.isEmpty then
      rep ++ replaceFuel pat rep f (List.drop (pat.length - 1) rest)
    else
      c :: replaceFuel pat rep f rest

/-- Python `s.replace(pat, rep)` (leftmost, non-overlapping). -/
def pyReplace (s pat rep : String) : String :=
  String.mk (replaceFuel pat.data rep.data s.data.length s.data)

/-- Python `a or b` for strings (`a` if non-empty, else `b`). -/
def pyOrS (a b : String) : String := if a = "" then b else a

/-! ### Python numbers

A Python float/int is modelled as an exact rational `num / (pden + 1)`.
No normalisation is performed, so every arithmetic operation is a plain
integer computation and reduces in the kernel; `toRat` maps a value to
the Mathlib rational it denotes, and all order-theoretic reasoning
happens on that side. -/

structure PyFloat where
  num : Int
  pden : Nat
  deriving DecidableEq, Repr

/-- Denominator (always positive). -/
def PyFloat.den (a : PyFloat) : Nat := a.pden + 1

def pyOfInt (n : Int) : PyFloat := ⟨n, 0⟩

def pyOfNat (n : Nat) : PyFloat := ⟨(n : Int), 0⟩

/-- The rational number a `PyFloat` denotes. -/
def toRat (a : PyFloat) : ℚ := (a.num : ℚ) / (a.den : ℚ)

def pyAdd (a b : PyFloat) : PyFloat :=
  ⟨a.num * (b.den : Int) + b.num * (a.den : Int), a.pden * b.pden + a.pden + b.pden⟩

def pyMul (a b : PyFloat) : PyFloat :=
  ⟨a.num * b.num, a.pden * b.pden + a.pden + b.pden⟩

/-- Python `a <= b` on numbers. -/
def pyLe (a b : PyFloat) : Bool := a.num * (b.den : Int) ≤ b.num * (a.den : Int)

/-- Python `a < b` on numbers. -/
def pyLt (a b : PyFloat) : Bool := a.num * (b.den : Int) < b.num * (a.den : Int)

/-- Python `a == b` on numbers (value equality). -/
def pyBeq (a b : PyFloat) : Bool := a.num * (b.den : Int) == b.num * (a.den : Int)

/-- Python `max(a, b)` (returns the first argument on ties). -/
def pyMax (a b : PyFloat) : PyFloat := if pyLt a b then b else a

/-- Python `min(a, b)` (returns the first argument on ties). -/
def pyMin (a b : PyFloat) : PyFloat := if pyLt b a then b else a

/-- Reciprocal; junk value on 0 (the services never divide by zero). -/
def pyRecip (a : PyFloat) : PyFloat :=
  if a.num = 0 then ⟨0, 0⟩
  else if 0 < a.num then ⟨(a.den : Int), a.num.toNat - 1⟩
  else ⟨-(a.den : Int), a.num.natAbs - 1⟩

def pyDiv (a b : PyFloat) : PyFloat := pyMul a (pyRecip b)

/-- Python `sum(...)` over a list of numbers. -/
def pySum (l : List PyFloat) : PyFloat := l.foldl pyAdd (pyOfInt 0)

/-- Round-half-to-even of `n / d` (`d > 0`), as Python's `round` does
(on `Int`, `/` is Euclidean division, i.e. floor division for a
positive divisor). -/
def rheInt (n : Int) (d : Nat) : Int :=
  let f := n / (d : Int)
  let r := n - f * (d : Int)
  if 2 * r < (d : Int) then f
  else if (d : Int) < 2 * r then f + 1
  else if f % 2 = 0 then f else f + 1

/-- Python `round(a, k)` (exact-rational model of float rounding). -/
def pyRoundTo (k : Nat) (a : PyFloat) : PyFloat :=
  ⟨rheInt (a.num * ((10 : Nat) ^ k : Nat)) a.den, (10 : Nat) ^ k - 1⟩

def pyRound2 (a : PyFloat) : PyFloat := pyRoundTo 2 a

def pyRound3 (a : PyFloat) : PyFloat := pyRoundTo 3 a

/-! ### Calendar helpers shared by the timestamp code -/

def isLeapYear (y : Nat) : Bool :=
  y % 4 == 0 && (y % 100 != 0 || y % 400 == 0)

def daysInMonth (y m : Nat) : Nat :=
  if m == 2 then (if isLeapYear y then 29 else 28)
  else if [4, 6, 9, 11].contains m then 30
  else 31

structure PyDateTime where
  year : Nat
  month : Nat
  day : Nat
  hour : Nat
  minute : Nat
  second : Nat
  micro : Nat
  deriving DecidableEq, Repr

/-- A datetime Python's `datetime` constructor would accept. -/
def ValidDT (dt : PyDateTime) : Prop :=
  1 ≤ dt.year ∧ dt.year ≤ 9999 ∧ 1 ≤ dt.month ∧ dt.month ≤ 12 ∧
    1 ≤ dt.day ∧ dt.day ≤ daysInMonth dt.year dt.month ∧
    dt.hour ≤ 23 ∧ dt.minute ≤ 59 ∧ dt.second ≤ 59 ∧ dt.micro ≤ 999999

instance (dt : PyDateTime) : Decidable (ValidDT dt) := by
  unfold ValidDT; infer_instance

def digitChar (n : Nat) : Char := Char.ofNat (48 + n % 10)

def pad2 (n : Nat) : String := String.mk [digitChar (n / 10), digitChar n]

def pad4 (n : Nat) : String :=
  String.mk [digitChar (n / 1000), digitChar (n / 100), digitChar (n / 10), digitChar n]

def pad6 (n : Nat) : String :=
  String.mk [digitChar (n / 100000), digitChar (n / 10000), digitChar (n / 1000),
    digitChar (n / 100), digitChar (n / 10), digitChar n]

/-- Python `datetime.isoformat()`: microseconds are printed only when
non-zero. -/
def isoformat (dt : PyDateTime) : String :=
  pad4 dt.year ++ "-" ++ pad2 dt.month ++ "-" ++ pad2 dt.day ++ "T" ++
    pad2 dt.hour ++ ":" ++ pad2 dt.minute ++ ":" ++ pad2 dt.second ++
    (if dt.micro == 0 then "" else "." ++ pad6 dt.micro)

/-! ### `schema_service._normalize_timestamp`

`datetime.strptime` is modelled by a small token machine: each numeric
directive consumes a bounded greedy digit run (`%Y` exactly four digits,
the others one or two, `%f` one to six) and the result is range-checked
exactly where Python's `datetime` constructor would raise. -/

def isDigitC (c : Char) : Bool := '0' ≤ c && c ≤ '9'

def digVal (c : Char) : Nat := c.toNat - 48

/-- Greedy digit run of at most `w` characters: value, count, rest. -/
def takeDigits : Nat → List Char → Nat × Nat × List Char
  | 0, cs => (0, 0, cs)
  | _ + 1, [] => (0, 0, [])
  | w + 1, c :: cs =>
    if isDigitC c then
      let (v, n, rest) := takeDigits w cs
      (digVal c * 10 ^ n + v, n + 1, rest)
    else (0, 0, c :: cs)

inductive FTok where
  | y | mo | d | h | mi | s | frac | lit (c : Char)
  deriving DecidableEq, Repr

/-- Accumulator with `strptime`'s defaults (1900-01-01 00:00:00). -/
structure StrpAcc where
  y : Nat := 1900
  mo : Nat := 1
  d : Nat := 1
  h : Nat := 0
  mi : Nat := 0
  s : Nat := 0
  micro : Nat := 0
  deriving DecidableEq, Repr

def runFmt : List FTok → List Char → StrpAcc → Option StrpAcc
  | [], [], acc => some acc
  | [], _ :: _, _ => none
  | FTok.lit _ :: _, [], _ => none
  | FTok.lit c :: ts, x :: cs, acc => if x = c then runFmt ts cs acc else none
  | FTok.y :: ts, cs, acc =>
    match takeDigits 4 cs with
    | (v, 4, rest) => runFmt ts rest { acc with y := v }
    | _ => none
  | FTok.mo :: ts, cs, acc =>
    match takeDigits 2 cs with
    | (v, n + 1, rest) => if n + 1 ≤ 2 then runFmt ts rest { acc with mo := v } else none
    | _ => none
  | FTok.d :: ts, cs, acc =>
    match takeDigits 2 cs with
    | (v, _ + 1, rest) => runFmt ts rest { acc with d := v }
    | _ => none
  | FTok.h :: ts, cs, acc =>
    match takeDigits 2 cs with
    | (v, _ + 1, rest) => runFmt ts rest { acc with h := v }
    | _ => none
  | FTok.mi :: ts, cs, acc =>
    match takeDigits 2 cs with
    | (v, _ + 1, rest) => runFmt ts rest { acc with mi := v }
    | _ => none
  | FTok.s :: ts, cs, acc =>
    match takeDigits 2 cs with
    | (v, _ + 1, rest) => runFmt ts rest { acc with s := v }
    | _ => none
  | FTok.frac :: ts, cs, acc =>
    match takeDigits 6 cs with
    | (v, n + 1, rest) => runFmt ts rest { acc with micro := v * 10 ^ (6 - (n + 1)) }
    | _ => none

/-- The range checks `datetime.strptime` performs before building a
`datetime` (invalid values raise `ValueError`). -/
def mkDT (acc : StrpAcc) : Option PyDateTime :=
  if 1 ≤ acc.y ∧ acc.y ≤ 9999 ∧ 1 ≤ acc.mo ∧ acc.mo ≤ 12 ∧ 1 ≤ acc.d ∧
      acc.d ≤ daysInMonth acc.y acc.mo ∧ acc.h ≤ 23 ∧ acc.mi ≤ 59 ∧
      acc.s ≤ 59 ∧ acc.micro ≤ 999999 then
    some ⟨acc.y, acc.mo, acc.d, acc.h, acc.mi, acc.s, acc.micro⟩
  else none

def strptimeDT (s : String) (toks : List FTok) : Option PyDateTime :=
  (runFmt toks s.data {}).bind mkDT

def fmtYmdHMSdash : List FTok :=
  [FTok.y, FTok.lit '-', FTok.mo, FTok.lit '-', FTok.d, FTok.lit ' ',
    FTok.h, FTok.lit ':', FTok.mi, FTok.lit ':', FTok.s]

def fmtYmdTHMS : List FTok :=
  [FTok.y, FTok.lit '-', FTok.mo, FTok.lit '-', FTok.d, FTok.lit 'T',
    FTok.h, FTok.lit ':', FTok.mi, FTok.lit ':', FTok.s]

def fmtYmdTHMSf : List FTok := fmtYmdTHMS ++ [FTok.lit '.', FTok.frac]

def fmtYmdHMSslash : List FTok :=
  [FTok.y, FTok.lit '/', FTok.mo, FTok.lit '/', FTok.d, FTok.lit ' ',
    FTok.h, FTok.lit ':', FTok.mi, FTok.lit ':', FTok.s]

def fmtYmdHMslash : List FTok :=
  [FTok.y, FTok.lit '/', FTok.mo, FTok.lit '/', FTok.d, FTok.lit ' ',
    FTok.h, FTok.lit ':', FTok.mi]

def fmtYmdDash : List FTok := [FTok.y, FTok.lit '-', FTok.mo, FTok.lit '-', FTok.d]

def fmtYmdSlash : List FTok := [FTok.y, FTok.lit '/', FTok.mo, FTok.lit '/', FTok.d]

def fmtHMS : List FTok := [FTok.h, FTok.lit ':', FTok.mi, FTok.lit ':', FTok.s]

def fmtHM : List FTok := [FTok.h, FTok.lit ':', FTok.mi]

structure TSFormat where
  toks : List FTok
  timeOnly : Bool
  dateOnly : Bool
  deriving DecidableEq, Repr

/-- The ordered format list of `_normalize_timestamp`; `timeOnly`
mirrors `fmt.startswith("%H")` and `dateOnly` mirrors
`fmt in ["%Y-%m-%d", "%Y/%m/%d"]`. -/
def tsFormats : List TSFormat :=
  [⟨fmtYmdHMSdash, false, false⟩, ⟨fmtYmdTHMS, false, false⟩,
    ⟨fmtYmdTHMSf, false, false⟩, ⟨fmtYmdHMSslash, false, false⟩,
    ⟨fmtYmdHMslash, false, false⟩, ⟨fmtYmdDash, false, true⟩,
    ⟨fmtYmdSlash, false, true⟩, ⟨fmtHMS, true, false⟩, ⟨fmtHM, true, false⟩]

/-- Post-processing after a successful `strptime`: time-only formats get
today's date, date-only formats get midnight. -/
def applyFmtPost (now : PyDateTime) (f : TSFormat) (dt : PyDateTime) : PyDateTime :=
  if f.timeOnly then { dt with year := now.year, month := now.month, day := now.day }
  else if f.dateOnly then { dt with hour := 0, minute := 0, second := 0 }
  else dt

def tryFormats (now : PyDateTime) : List TSFormat → String → Option PyDateTime
  | [], _ => none
  | f :: fs, s =>
    match strptimeDT s f.toks with
    | some dt => some (applyFmtPost now f dt)
    | none => tryFormats now fs s

/-- Model of the date regex (four digits, dash-or-slash, two digits,
dash-or-slash, two digits): window test at one position. -/
def matchDateAt : List Char → Bool
  | a :: b :: c :: d :: s1 :: e :: f :: s2 :: g :: h :: _ =>
    isDigitC a && isDigitC b && isDigitC c && isDigitC d &&
      (s1 == '-' || s1 == '/') && isDigitC e && isDigitC f &&
      (s2 == '-' || s2 == '/') && isDigitC g && isDigitC h
  | _ => false

/-- `re.search` for the date pattern: leftmost 10-character match. -/
def findDate10 : List Char → Option (List Char)
  | [] => none
  | c :: cs => if matchDateAt (c :: cs) then some ((c :: cs).take 10) else findDate10 cs

def matchHMSAt : List Char → Bool
  | a :: b :: c1 :: d :: e :: c2 :: f :: g :: _ =>
    isDigitC a && isDigitC b && c1 == ':' && isDigitC d && isDigitC e &&
      c2 == ':' && isDigitC f && isDigitC g
  | _ => false

def matchHMAt : List Char → Bool
  | a :: b :: c1 :: d :: e :: _ =>
    isDigitC a && isDigitC b && c1 == ':' && isDigitC d && isDigitC e
  | _ => false

/-- `re.search` for `(\d{2}:\d{2}:\d{2}|\d{2}:\d{2})`: leftmost position,
first alternative preferred. -/
def findTime : List Char → Option (List Char)
  | [] => none
  | c :: cs =>
    if matchHMSAt (c :: cs) then some ((c :: cs).take 8)
    else if matchHMAt (c :: cs) then some ((c :: cs).take 5)
    else findTime cs

/-- `timestamp_str[1:-1]` when bracketed like `[09:18:37]`. -/
def bracketStrip (cs : List Char) : List Char :=
  if cs.head? == some '[' && cs.getLast? == some ']' then (cs.drop 1).dropLast else cs

/-- `SchemaService._normalize_timestamp`.  Every call of
`datetime.now()` in the Python body is modelled by the single `now`
parameter; the input is the event's timestamp field (`None` or a
string — any other type is first turned into its string form by
`str(...)` in the source). -/
def _normalize_timestamp (now : PyDateTime) (timestamp : Option String) : String :=
  match timestamp with
  | none => isoformat now
  | some t =>
    let s := String.mk (bracketStrip (pyStrip t).data)
    match tryFormats now tsFormats s with
    | some dt => isoformat dt
    | none =>
      match findDate10 s.data, findTime s.data with
      | some dcs, some tcs =>
        let dstr := dcs.map (fun c => if c == '/' then '-' else c)
        match strptimeDT (String.mk (dstr ++ [' '] ++ tcs)) fmtYmdHMSdash with
        | some dt => isoformat dt
        | none => isoformat now
      | some dcs, none =>
        let dstr := dcs.map (fun c => if c == '/' then '-' else c)
        match strptimeDT (String.mk dstr) fmtYmdDash with
        | some dt => isoformat { dt with hour := 0, minute := 0, second := 0 }
        | none => isoformat now
      | none, some tcs =>
        match (if tcs.length == 8 then strptimeDT (String.mk tcs) fmtHMS
            else strptimeDT (String.mk tcs) fmtHM) with
        | some dt => isoformat { dt with year := now.year, month := now.month, day := now.day }
        | none => isoformat now
      | none, none => isoformat now

/-! ### `datetime.fromisoformat(...).date().isoformat()`

Simplified model of Python 3.11's `fromisoformat` as used by
`validate_schema`, `calculate_deduplication_stats` and
`_deduplicate_events`: a `YYYY-MM-DD` date (range-checked), optionally
followed by one separator character and `HH[:MM[:SS[.ffffff]]]` with an
optional `±HH:MM` offset.  On success it returns the ten-character date
part (`dt.date().isoformat()`); on failure `none` (the `ValueError`
branch). -/

def twoDigitVal : List Char → Option (Nat × List Char)
  | a :: b :: r => if isDigitC a && isDigitC b then some (digVal a * 10 + digVal b, r) else none
  | _ => none

def parseOffset : List Char → Bool
  | [] => true
  | c :: r =>
    (c == '+' || c == '-') &&
      (match twoDigitVal r with
      | some (hh, ':' :: r2) =>
        hh ≤ 23 &&
          (match twoDigitVal r2 with
          | some (mm, r3) => mm ≤ 59 && r3.isEmpty
          | none => false)
      | _ => false)

def parseSecTail (cs : List Char) : Bool :=
  match cs with
  | '.' :: r =>
    match takeDigits 6 r with
    | (_, n, rest) => 1 ≤ n && parseOffset rest
  | r => parseOffset r

def parseTimePart (cs : List Char) : Bool :=
  match twoDigitVal cs with
  | some (hh, r) =>
    hh ≤ 23 &&
      (match r with
      | ':' :: r2 =>
        match twoDigitVal r2 with
        | some (mm, r3) =>
          mm ≤ 59 &&
            (match r3 with
            | ':' :: r4 =>
              match twoDigitVal r4 with
              | some (ss, r5) => ss ≤ 59 && parseSecTail r5
              | none => false
            | r' => parseOffset r')
        | none => false
      | r' => parseOffset r')
  | none => false

def fromisoDate (s : String) : Option String :=
  match s.data with
  | a :: b :: c :: d :: s1 :: e :: f :: s2 :: g :: h :: rest =>
    let y := digVal a * 1000 + digVal b * 100 + digVal c * 10 + digVal d
    let m := digVal e * 10 + digVal f
    let dy := digVal g * 10 + digVal h
    if isDigitC a && isDigitC b && isDigitC c && isDigitC d && s1 == '-' &&
        isDigitC e && isDigitC f && s2 == '-' && isDigitC g && isDigitC h &&
        1 ≤ y && 1 ≤ m && m ≤ 12 && 1 ≤ dy && dy ≤ daysInMonth y m &&
        (rest.isEmpty || (match rest with
          | _ :: t => parseTimePart t
          | [] => true)) then
      some (String.mk [a, b, c, d, s1, e, f, s2, g, h])
    else none
  | _ => none

/-! ### Raw events and the `data` bag

A raw parsed observation (`raw_event` in `schema_service.py`).  Missing
dictionary keys are `none`.  A `data` value is `dnone` (Python `None`),
`dnum v` (a value `float(...)` accepts — numbers and numeric strings),
or `dother` (present, truthy, not float-convertible). -/

inductive DVal where
  | dnone
  | dnum (v : PyFloat)
  | dother
  deriving DecidableEq, Repr

structure RawEvent where
  timestamp : Option String := none
  description : Option String := none
  error_code : Option String := none
  severity : Option String := none
  status : Option String := none
  event_type : Option String := none
  event_id : Option String := none
  data : List (String × DVal) := []
  deriving DecidableEq, Repr

/-- Dictionary lookup (`key in data` / `data[key]`); keys are unique. -/
def dataLookup (data : List (String × DVal)) (k : String) : Option DVal :=
  (data.find? (fun p => p.1 == k)).map Prod.snd

/-- Python truthiness of a `data` value (`None`, `0` and `0.0` are
falsy). -/
def dvalTruthy : DVal → Bool
  | DVal.dnone => false
  | DVal.dnum v => !(pyBeq v (pyOfInt 0))
  | DVal.dother => true

/-- `data.get("Axis") or data.get("axis")`. -/
def pyOrDV (a b : Option DVal) : Option DVal :=
  match a with
  | some v => if dvalTruthy v then some v else b
  | none => b

/-! ### `schema_service._extract_joint` -/

def isAxisDigit (c : Char) : Bool := ['1', '2', '3', '4', '5', '6'].contains c

/-- `re.search(r"J([1-6])", desc)`. -/
def findJDigit : List Char → Option Char
  | c :: d :: rest =>
    if c == 'J' && isAxisDigit d then some d else findJDigit (d :: rest)
  | _ => none

/-- `re.search(kw + r"\s*([1-6])", desc)` for `kw` = `AXIS`/`JOINT`. -/
def findKwDigit (kw : List Char) : List Char → Option Char
  | [] => none
  | c :: cs =>
    if kw.isPrefixOf (c :: cs) then
      match (List.dropWhile isPySpace (List.drop kw.length (c :: cs))).head? with
      | some d => if isAxisDigit d then some d else findKwDigit kw cs
      | none => findKwDigit kw cs
    else findKwDigit kw cs

/-- Python `int(x)` on a float value: truncation toward zero.  (On
numeric strings Python only accepts integer literals; the model applies
truncation uniformly to every `dnum`.) -/
def pyToInt (v : PyFloat) : Int := Int.tdiv v.num (v.den : Int)

def axisPairs : List (String × Char) :=
  [("axis1", '1'), ("axis2", '2'), ("axis3", '3'),
    ("axis4", '4'), ("axis5", '5'), ("axis6", '6')]

def _extract_joint (event : RawEvent) : String :=
  let desc := pyUpper (event.description.getD "")
  match findJDigit desc.data with
  | some d => String.mk ['J', d]
  | none =>
    match findKwDigit "AXIS".data desc.data with
    | some d => String.mk ['J', d]
    | none =>
      match findKwDigit "JOINT".data desc.data with
      | some d => String.mk ['J', d]
      | none =>
        match axisPairs.findSome? (fun p =>
            match dataLookup event.data p.1 with
            | some DVal.dnone => none
            | some _ => some (String.mk ['J', p.2])
            | none => none) with
        | some j => j
        | none =>
          match pyOrDV (dataLookup event.data "Axis") (dataLookup event.data "axis") with
          | some (DVal.dnum v) =>
            let i := pyToInt v
            if 1 ≤ i ∧ i ≤ 6 then String.mk ['J', digitChar i.toNat] else "UNKNOWN"
          | _ => "UNKNOWN"

/-! ### `schema_service._detect_collision_type` -/

/-- `SchemaService.COLLISION_KEYWORDS`, in dict insertion order. -/
def COLLISION_KEYWORDS : List (String × List String) :=
  [("hard_impact", ["collision", "crash", "impact", "strike"]),
    ("soft_collision", ["contact", "touch", "brush"]),
    ("emergency_stop", ["e-stop", "emergency", "estop", "emergency stop"])]

/-- The nested keyword loop: first category with a keyword found in the
lowered description or the uppered error code. -/
def scanCollisionKeywords (desc ec : String) : Option String :=
  COLLISION_KEYWORDS.findSome? (fun p =>
    if p.2.any (fun k => pyIn k desc || pyIn k ec) then some p.1 else none)

def _detect_collision_type (event : RawEvent) : Option String :=
  let desc := pyLower (event.description.getD "")
  let ec := pyUpper (event.error_code.getD "")
  match scanCollisionKeywords desc ec with
  | some t => some t
  | none =>
    if pyIn "SRVO-324" ec then some "hard_impact"
    else if pyIn "SRVO" ec && pyIn "COLLISION" (pyUpper desc) then some "hard_impact"
    else if pyIn "E-STOP" (pyUpper desc) || pyIn "EMERGENCY" (pyUpper desc) then
      some "emergency_stop"
    else none

/-! ### `schema_service._extract_force_value` -/

/-- The heuristic vibration-to-force scaling
(`force = force * 100` when the key is `vibration` and the value is
positive). -/
def scaledForce (k : String) (q : PyFloat) : PyFloat :=
  if k == "vibration" && pyLt (pyOfInt 0) q then pyMul q (pyOfInt 100) else q

/-- One step of the data-field loop: a present, non-`None`,
float-convertible value, vibration scaled by 100, kept only when inside
[0, 10000] (out-of-range and non-convertible values fall through to the
next key). -/
def tryForceKey (event : RawEvent) (k : String) : Option PyFloat :=
  match dataLookup event.data k with
  | some (DVal.dnum q) =>
    if pyLe (pyOfInt 0) (scaledForce k q) && pyLe (scaledForce k q) (pyOfInt 10000) then
      some (pyRound2 (scaledForce k q))
    else none
  | _ => none

/-- Leftmost match of the description regex (digits, optional fraction,
optional whitespace, `N`/`n`), returning the numeric value. -/
def findForceNum : List Char → Option PyFloat
  | [] => none
  | c :: cs =>
    (if isDigitC c then
      match takeDigits 40 (c :: cs) with
      | (iv, _ + 1, rest) =>
        let (fv, fn, rest2) :=
          match rest with
          | '.' :: r =>
            match takeDigits 40 r with
            | (v, m + 1, r2) => (v, m + 1, r2)
            | (_, 0, _) => (0, 0, rest)
          | _ => (0, 0, rest)
        let rest3 := rest2.dropWhile isPySpace
        match rest3.head? with
        | some c2 =>
          if c2 == 'n' || c2 == 'N' then
            some ⟨(iv : Int) * ((10 : Nat) ^ fn : Nat) + (fv : Int), (10 : Nat) ^ fn - 1⟩
          else findForceNum cs
        | none => findForceNum cs
      | (_, 0, _) => findForceNum cs
    else findForceNum cs)

def forceKeys : List String := ["force", "force_value", "torque", "vibration"]

def _extract_force_value (event : RawEvent) : Option PyFloat :=
  match forceKeys.findSome? (tryForceKey event) with
  | some v => some v
  | none =>
    match findForceNum (pyLower (event.description.getD "")).data with
    | some q =>
      if pyLe (pyOfInt 0) q && pyLe q (pyOfInt 10000) then some (pyRound2 q) else none
    | none => none

/-! ### `schema_service._calculate_severity` -/

def _calculate_severity (event : RawEvent) : String :=
  match _extract_force_value event with
  | some f =>
    if pyLt f (pyOfInt 300) then "low"
    else if pyLt f (pyOfInt 600) then "med"
    else if pyLt f (pyOfInt 800) then "high" else "critical"
  | none =>
    let sr := pyUpper (event.severity.getD "")
    if pyIn "CRITICAL" sr then "critical"
    else if pyIn "HIGH" sr || pyIn "ALERT" sr then "high"
    else if pyIn "MEDIUM" sr || pyIn "MED" sr || pyIn "WARN" sr then "med"
    else if pyIn "LOW" sr || pyIn "NOTICE" sr || pyIn "INFO" sr then "low"
    else if pyIn "SRVO" (event.error_code.getD "") ||
        pyIn "COLLISION" (pyUpper (event.description.getD "")) then "med"
    else "low"

/-! ### `schema_service._generate_notes` -/

/-- Python truthiness of an optional string field. -/
def strFalsy : Option String → Bool
  | none => true
  | some s => s == ""

def _generate_notes (event : RawEvent) : String :=
  let notes :=
    (if strFalsy event.timestamp then ["Timestamp inferred from sequence"] else []) ++
      (if _extract_joint event == "UNKNOWN" then
        ["Joint identifier not found, may need manual review"] else []) ++
      (if (match _extract_force_value event with
          | none => true
          | some f => pyBeq f (pyOfInt 0)) then
        ["Force value not available, severity calculated from other indicators"] else [])
  String.intercalate "; " notes

/-! ### `schema_service.validate_schema`

A normalized event as `validate_schema` sees it.  For the string
fields, `none` means the key is absent from the dictionary, `some none`
means the key is present with a non-string falsy value (Python `None`),
and `some (some s)` is a string.  `force_value` collapses "absent" and
`None` because the code only uses `.get`.  The result is an `Except`:
`Except.error` models an uncaught Python exception escaping the
function. -/

structure NEvent where
  record_id : Option (Option String) := none
  timestamp : Option (Option String) := none
  joint : Option (Option String) := none
  severity : Option (Option String) := none
  status : Option (Option String) := none
  force_value : Option PyFloat := none
  deriving DecidableEq, Repr

/-- `field not in event or not event[field]`. -/
def fieldFalsy : Option (Option String) → Bool
  | none => true
  | some none => true
  | some (some s) => s == ""

def requiredFields (e : NEvent) : List (String × Option (Option String)) :=
  [("record_id", e.record_id), ("timestamp", e.timestamp), ("joint", e.joint),
    ("severity", e.severity), ("status", e.status)]

/-- Enum membership messages are simplified renderings of the Python
f-strings (the list repr quotes are dropped). -/
def validate_schema (e : NEvent) : Except String (Bool × List String) := Id.run do
  let mut errors : List String := []
  for p in requiredFields e do
    if fieldFalsy p.2 then
      errors := errors ++ ["Missing required field: " ++ p.1]
  -- `normalized_event["timestamp"]` raises KeyError when the key is
  -- absent; `None.replace` raises AttributeError, which IS caught.
  match e.timestamp with
  | none => return Except.error "KeyError: timestamp"
  | some none =>
    errors := errors ++ ["Invalid timestamp format (must be ISO 8601)"]
  | some (some ts) =>
    if (fromisoDate (pyReplace ts "Z" "+00:00")).isNone then
      errors := errors ++ ["Invalid timestamp format (must be ISO 8601)"]
  match e.severity with
  | some (some s) =>
    if !(["low", "med", "high", "critical"].contains s) then
      errors := errors ++ ["Invalid severity: must be one of [low, med, high, critical]"]
  | _ =>
    errors := errors ++ ["Invalid severity: must be one of [low, med, high, critical]"]
  match e.status with
  | some (some s) =>
    if !(["pending_inspection", "under_repair", "resolved"].contains s) then
      errors := errors ++
        ["Invalid status: must be one of [pending_inspection, under_repair, resolved]"]
  | _ =>
    errors := errors ++
      ["Invalid status: must be one of [pending_inspection, under_repair, resolved]"]
  match e.force_value with
  | some f =>
    if pyLt f (pyOfInt 0) || pyLt (pyOfInt 10000) f then
      errors := errors ++ ["Force value out of range (must be 0-10,000N)"]
  | none => pure ()
  return Except.ok (errors.length == 0, errors)

/-! ### Deduplication (`main._deduplicate_events` and
`validation_service.calculate_deduplication_stats`)

Events carry an arbitrary extra payload `α` so the statements cover
records with any further fields. -/

structure DedupEv (α : Type) where
  joint : Option String := none
  timestamp : Option String := none
  recurrence_count : Option Nat := none
  payload : α
  deriving DecidableEq, Repr

/-- `dt.date().isoformat()` on success, the `"unknown"` bucket on any
exception. -/
def dateKeyOf (ts : String) : String :=
  match fromisoDate (pyReplace ts "Z" "+00:00") with
  | some d => d
  | none => "unknown"

/-- The composite group key `f"{joint}_{date_key}"`. -/
def dkey {α : Type} (e : DedupEv α) : String :=
  (e.joint.getD "UNKNOWN") ++ "_" ++ dateKeyOf (e.timestamp.getD "")

def setRec {α : Type} (n : Nat) (e : DedupEv α) : DedupEv α :=
  { e with recurrence_count := some n }

/-- `defaultdict(list)` insertion: append to the key's group, creating
the group at the end on first sight (dicts preserve insertion order). -/
def insertGrp {α : Type} (k : String) (e : DedupEv α) :
    List (String × List (DedupEv α)) → List (String × List (DedupEv α))
  | [] => [(k, [e])]
  | (k', g) :: rest =>
    if k' = k then (k', g ++ [e]) :: rest else (k', g) :: insertGrp k e rest

/-- The grouping loop of `_deduplicate_events`. -/
def groupByKey {α : Type} (events : List (DedupEv α)) :
    List (String × List (DedupEv α)) :=
  events.foldl (fun gs e => insertGrp (dkey e) e gs) []

/-- The second loop: every member of a multi-member group gets the
group's size as `recurrence_count`; a single-member group's only event
gets 1 (for a group of at most one element, `group[0]` with count 1 is
the same as mapping `setRec 1` over it). -/
def applyGroup {α : Type} (p : String × List (DedupEv α)) : List (DedupEv α) :=
  if 1 < p.2.length then p.2.map (setRec p.2.length) else p.2.map (setRec 1)

def _deduplicate_events {α : Type} (events : List (DedupEv α)) : List (DedupEv α) :=
  (groupByKey events).flatMap applyGroup

/-- Result dictionary of `calculate_deduplication_stats`
(`duplication_rate` is absent from the empty-input early return, hence
the `Option`). -/
structure DedupStats where
  total_events : Nat
  unique_events : Nat
  duplicates : Nat
  duplication_rate : Option PyFloat
  recurrence_stats : List (String × Nat)
  deriving DecidableEq, Repr

/-- `ValidationService.calculate_deduplication_stats`, embedded with the
source's control flow as written: the `try:` block sits at the `for`
statement's indentation level (so it runs once, after the loop, on the
loop variables' final values) and the `key = ...` /
`event_groups[key].append(event)` statements sit inside the `except`
branch, so a group is created only when the last event's timestamp
fails to parse, and it then holds just that event. -/
def calculate_deduplication_stats {α : Type} (events : List (DedupEv α)) : DedupStats :=
  match events with
  | [] => ⟨0, 0, 0, none, []⟩
  | e :: es =>
    let last := (e :: es).getLast (List.cons_ne_nil e es)
    let joint := last.joint.getD "UNKNOWN"
    let ts := last.timestamp.getD ""
    let event_groups : List (String × List (DedupEv α)) :=
      match fromisoDate (pyReplace ts "Z" "+00:00") with
      | some _ => []
      | none => [(joint ++ "_" ++ "unknown", [last])]
    let total := (e :: es).length
    let unique := event_groups.length
    let duplicates := total - unique
    ⟨total, unique, duplicates,
      some (if 0 < total then
        pyRound2 (pyMul (pyDiv (pyOfNat duplicates) (pyOfNat total)) (pyOfInt 100))
      else pyOfInt 0),
      event_groups.filterMap (fun p =>
        if 1 < p.2.length then some (p.1, p.2.length) else none)⟩

/-! ### `history_service.find_similar_events`

An event in the history pool.  Fields are probed as
`event.get(k, "") or event.get("original_event", {}).get(k, "")`, so
each event carries both its own and its nested `original_event` values;
`""` plays the role of a missing/falsy entry (`None` and `""` are
interchangeable for this code: both are falsy and neither can compare
equal to a non-empty id).  `difflib.SequenceMatcher(None, a, b).ratio()`
is the `textSim` parameter: the theorems hold for every ratio function,
in particular the real one. -/

structure HistEv where
  event_type : String := ""
  orig_event_type : String := ""
  description : String := ""
  orig_description : String := ""
  error_code : String := ""
  orig_error_code : String := ""
  severity : String := ""
  event_id : String := ""
  orig_event_id : String := ""
  record_id : String := ""
  deriving DecidableEq, Repr

def effType (e : HistEv) : String := pyOrS e.event_type e.orig_event_type

def effDesc (e : HistEv) : String := pyLower (pyOrS e.description e.orig_description)

def effErr (e : HistEv) : String := pyOrS e.error_code e.orig_error_code

def effEvId (e : HistEv) : String := pyOrS e.event_id e.orig_event_id

/-- `HistoryService._extract_keywords` (`important_terms` scan over the
lowered text; the list has no duplicates, so the Python set
intersection size is the filtered list's length). -/
def importantTerms : List String :=
  ["collision", "torque", "vibration", "temperature", "servo",
    "battery", "fence", "overtravel", "singularity", "joint",
    "motor", "axis", "sensor", "network", "calibrate", "belt",
    "wiring", "lubricate", "replace", "check", "inspect"]

def _extract_keywords (text : String) : List String :=
  importantTerms.filter (fun t => pyIn t (pyLower text))

/-- The per-candidate similarity score of `find_similar_events`. -/
def simScore (textSim : String → String → PyFloat) (cur ev : HistEv) : PyFloat :=
  let s0 := pyOfInt 0
  let s1 := if effType ev ≠ "" ∧ effType cur ≠ "" ∧ effType ev = effType cur then
      pyAdd s0 ⟨4, 9⟩ else s0
  let s2 := if effDesc cur ≠ "" ∧ effDesc ev ≠ "" then
      pyAdd s1 (pyMul (textSim (effDesc cur) (effDesc ev)) ⟨3, 9⟩) else s1
  let s3 := if effErr cur ≠ "" ∧ effErr ev ≠ "" ∧ effErr ev = effErr cur then
      pyAdd s2 ⟨2, 9⟩ else s2
  let s4 := if cur.severity ≠ "" ∧ ev.severity ≠ "" ∧ ev.severity = cur.severity then
      pyAdd s3 ⟨1, 9⟩ else s3
  let common := (_extract_keywords (effDesc cur)).filter
      (fun t => (_extract_keywords (effDesc ev)).contains t)
  if common.length ≠ 0 then
    pyAdd s4 (pyMin (pyMul (pyOfNat common.length) ⟨5, 99⟩) ⟨2, 9⟩)
  else s4

/-- The self-exclusion test at the top of the loop body. -/
def skipSelf (cur ev : HistEv) : Bool :=
  (effEvId cur ≠ "" && effEvId ev == effEvId cur) ||
    (cur.record_id ≠ "" && ev.record_id == cur.record_id)

/-- A returned match: the event copy with its `similarity_score`
(the `match_reasons` list is presentation-only and omitted). -/
structure SimMatch where
  ev : HistEv
  similarity_score : PyFloat
  deriving DecidableEq, Repr

/-- The qualifying candidates, in pool order, with rounded scores. -/
def simCandidates (textSim : String → String → PyFloat) (cur : HistEv)
    (pool : List HistEv) : List SimMatch :=
  pool.filterMap (fun ev =>
    if skipSelf cur ev then none
    else
      let s := simScore textSim cur ev
      if pyLe ⟨3, 9⟩ s then some ⟨ev, pyRound3 s⟩ else none)

/-- Descending score order used by the final sort. -/
def simGE (a b : SimMatch) : Prop :=
  pyLe b.similarity_score a.similarity_score = true

instance : DecidableRel simGE := fun _ _ =>
  inferInstanceAs (Decidable (_ = true))

/-- `HistoryService.find_similar_events`.  Python's `list.sort` is a
stable sort; any stable sort produces the same list, so the model uses
insertion sort. -/
def find_similar_events (textSim : String → String → PyFloat) (cur : HistEv)
    (pool : List HistEv) (limit : Nat) : List SimMatch :=
  (List.insertionSort simGE (simCandidates textSim cur pool)).take limit

/-! ### `triage_service.score_event`

The awaited `azure_ai_service.analyze_event` call is modelled by the
`ai` parameter (the claims quantify over every oracle result).  The
returned dictionary's pass-through fields (`maintenance_report`,
`ai_metadata`) carry no scoring logic and are omitted. -/

structure AIResult where
  risk_score : Option PyFloat := none
  priority : Option String := none
  recommendation : Option String := none
  analysis : Option String := none
  deriving DecidableEq, Repr

/-- The event fields `score_event` reads.  A similar event contributes
only its optional `similarity_score`. -/
structure ScoreEvent where
  severity : Option String := none
  recurrence_count : Option Int := none
  deriving DecidableEq, Repr

structure TriageResult where
  score : PyFloat
  priority : String
  recommendation : String
  analysis : String
  deriving DecidableEq, Repr

def _score_to_priority (score : PyFloat) : String :=
  if pyLe (pyOfInt 80) score then "CRITICAL"
  else if pyLe (pyOfInt 60) score then "HIGH"
  else if pyLe (pyOfInt 40) score then "MEDIUM"
  else "LOW"

/-- The `severity == "critical"` base-score block of `score_event`:
floor at 80, recurrence-tiered overrides. -/
def criticalBase (ai_score : PyFloat) (recurrence : Int) : PyFloat :=
  let b := pyMax ai_score (pyOfInt 80)
  if 100 < recurrence then pyOfInt 95
  else if 50 < recurrence then pyMin (pyAdd b (pyOfInt 10)) (pyOfInt 100)
  else if 10 < recurrence then pyMin (pyAdd b (pyOfInt 5)) (pyOfInt 100)
  else b

/-- The `severity == "high"` base-score block of `score_event`. -/
def highBase (ai_score : PyFloat) (recurrence : Int) : PyFloat :=
  let b := pyMax ai_score (pyOfInt 60)
  if 100 < recurrence then pyMin (pyAdd b (pyOfInt 15)) (pyOfInt 100)
  else if 50 < recurrence then pyMin (pyAdd b (pyOfInt 10)) (pyOfInt 100)
  else if 10 < recurrence then pyMin (pyAdd b (pyOfInt 5)) (pyOfInt 100)
  else b

/-- The medium/low base-score block of `score_event`. -/
def otherBase (ai_score : PyFloat) (recurrence : Int) : PyFloat :=
  if 100 < recurrence then pyMin (pyAdd ai_score (pyOfInt 20)) (pyOfInt 100)
  else if 50 < recurrence then pyMin (pyAdd ai_score (pyOfInt 15)) (pyOfInt 100)
  else if 10 < recurrence then pyMin (pyAdd ai_score (pyOfInt 10)) (pyOfInt 100)
  else ai_score

/-- The similar-events adjustment of `score_event`: +10 when the
average similarity of the first five similar events exceeds 0.8
(skipped when `similar_events` is `None` or empty). -/
def similarityBoost (similar_events : Option (List (Option PyFloat)))
    (base_score : PyFloat) : PyFloat :=
  match similar_events with
  | some (s :: rest) =>
    let firstFive := ((s :: rest).take 5).map (fun o => o.getD (pyOfInt 0))
    let avg := pyDiv (pySum firstFive) (pyOfNat (min (s :: rest).length 5))
    if pyLt ⟨8, 9⟩ avg then pyAdd base_score (pyOfInt 10) else base_score
  | _ => base_score

def score_event (ai : AIResult) (event : ScoreEvent)
    (similar_events : Option (List (Option PyFloat))) : TriageResult :=
  let ai_score := ai.risk_score.getD (pyOfInt 50)
  let severity := pyStrip (pyLower (event.severity.getD ""))
  let recurrence := event.recurrence_count.getD 0
  let base_score :=
    if severity = "critical" then criticalBase ai_score recurrence
    else if severity = "high" then highBase ai_score recurrence
    else otherBase ai_score recurrence
  let base_score2 := similarityBoost similar_events base_score
  let final_score := pyMin (pyMax base_score2 (pyOfInt 0)) (pyOfInt 100)
  let ai_priority := pyUpper (ai.priority.getD "")
  let priority :=
    if severity = "critical" then "CRITICAL"
    else if severity = "high" then
      (if ai_priority ≠ "CRITICAL" then "HIGH" else ai_priority)
    else
      (if ai_priority ≠ "" then ai_priority else _score_to_priority final_score)
  { score := pyRound2 final_score
    priority := priority
    recommendation := ai.recommendation.getD "Monitor the situation"
    analysis := ai.analysis.getD "Event analyzed" }

/-! ### `azure_ai_service._mock_analysis` -/

structure MockResult where
  priority : String
  risk_score : Int
  recommendation : String
  deriving DecidableEq, Repr

def _generate_mock_recommendation (priority : String) : String :=
  if priority = "CRITICAL" then
    "Immediate action required. Stop operations and investigate root cause."
  else if priority = "HIGH" then
    "Schedule maintenance soon. Monitor closely for escalation."
  else if priority = "MEDIUM" then
    "Review during next maintenance window. Continue monitoring."
  else "Monitor the situation."

/-- The event fields `_mock_analysis` reads; a similar event contributes
only its optional severity.  The generated `analysis` narrative string
is presentation-only and omitted from the result model. -/
structure MockEvent where
  event_type : String := ""
  severity : String := ""
  error_code : String := ""
  description : String := ""
  deriving DecidableEq, Repr

def _mock_analysis (event : MockEvent)
    (similar_events : Option (List (Option String))) : MockResult :=
  let pr :=
    if event.severity = "CRITICAL" ∨ pyIn "CRITICAL" (pyUpper event.description) then
      ("CRITICAL", (90 : Int))
    else if event.severity = "ALERT" ∨ event.severity = "WARN" then ("HIGH", 70)
    else if event.severity = "NOTICE" ∨ event.severity = "INFO" then ("LOW", 30)
    else ("MEDIUM", 50)
  let rs1 :=
    if event.error_code ≠ "" then
      pr.2 + (if pyIn "SRVO" event.error_code then 10 else 0) +
        (if pyIn "TEMP" event.error_code then 5 else 0)
    else pr.2
  let rs2 :=
    match similar_events with
    | some (s :: rest) =>
      let hps := ((s :: rest).filter
          (fun o => o == some "CRITICAL" || o == some "ALERT")).length
      if 0 < hps then rs1 + min ((hps : Int) * 5) 20 else rs1
    | _ => rs1
  let rs3 := min rs2 100
  { priority := pr.1, risk_score := rs3,
    recommendation := _generate_mock_recommendation pr.1 }

/-! ### Spec-side auxiliary definitions used by the claim statements -/

/-- Rank of a severity tier in the order low < med < high < critical. -/
def sevRank : String → Nat
  | "low" => 0
  | "med" => 1
  | "high" => 2
  | "critical" => 3
  | _ => 0

/-- The severity step function exactly as the spec words it
(&lt;300 low, &lt;600 med, &lt;800 high, ≥800 critical), for comparison
with `_calculate_severity`. -/
def stepSpecSeverity (f : ℚ) : String :=
  if f < 300 then "low" else if f < 600 then "med" else if f < 800 then "high"
  else "critical"

/-- Concrete records reused by counterexample and witness statements. -/
def nowSample : PyDateTime := ⟨2025, 11, 20, 10, 30, 0, 0⟩

def rawContactSrvo : RawEvent :=
  { description := some "light contact with part", error_code := some "SRVO-324" }

def rawFaultSrvo : RawEvent :=
  { description := some "robot fault detected", error_code := some "SRVO-324" }

def rawBadTimestamp : RawEvent :=
  { timestamp := some "birthday party", description := some "something odd" }

def nevNoTimestamp : NEvent :=
  { record_id := some (some "r1"), joint := some (some "J1"),
    severity := some (some "low"), status := some (some "resolved") }

def dedupSampleA : DedupEv Unit :=
  { joint := some "J1", timestamp := some "2025-11-17T09:00:00", payload := () }

/-! ### Bridge lemmas between `PyFloat` operations and `ℚ` -/

theorem den_pos (a : PyFloat) : 0 < a.den := Nat.succ_pos a.pden

theorem den_pos_q (a : PyFloat) : (0 : ℚ) < (a.den : ℚ) := by
  exact_mod_cast den_pos a

theorem den_ne_zero_q (a : PyFloat) : (a.den : ℚ) ≠ 0 := ne_of_gt (den_pos_q a)

theorem toRat_def (a : PyFloat) : toRat a = (a.num : ℚ) / (a.den : ℚ) := rfl

theorem pyLe_iff (a b : PyFloat) : pyLe a b = true ↔ toRat a ≤ toRat b := by
  unfold pyLe toRat
  rw [decide_eq_true_eq, div_le_div_iff₀ (den_pos_q a) (den_pos_q b)]
  exact_mod_cast Iff.rfl

theorem pyLt_iff (a b : PyFloat) : pyLt a b = true ↔ toRat a < toRat b := by
  unfold pyLt toRat
  rw [decide_eq_true_eq, div_lt_div_iff₀ (den_pos_q a) (den_pos_q b)]
  exact_mod_cast Iff.rfl

theorem pyBeq_iff (a b : PyFloat) : pyBeq a b = true ↔ toRat a = toRat b := by
  unfold pyBeq toRat
  rw [beq_iff_eq, div_eq_div_iff (den_ne_zero_q a) (den_ne_zero_q b)]
  exact_mod_cast Iff.rfl

theorem toRat_ofInt (n : Int) : toRat (pyOfInt n) = (n : ℚ) := by
  unfold toRat pyOfInt PyFloat.den
  norm_num

theorem toRat_ofNat (n : Nat) : toRat (pyOfNat n) = (n : ℚ) := by
  unfold toRat pyOfNat PyFloat.den
  norm_num

theorem pyAdd_den (a b : PyFloat) : (pyAdd a b).den = a.den * b.den := by
  unfold pyAdd PyFloat.den
  ring

theorem toRat_add (a b : PyFloat) : toRat (pyAdd a b) = toRat a + toRat b := by
  unfold toRat
  rw [pyAdd_den]
  show ((a.num * (b.den : Int) + b.num * (a.den : Int) : Int) : ℚ) / _ = _
  rw [div_add_div _ _ (den_ne_zero_q a) (den_ne_zero_q b)]
  push_cast
  ring_nf

theorem toRat_max (a b : PyFloat) : toRat (pyMax a b) = max (toRat a) (toRat b) := by
  unfold pyMax
  by_cases h : pyLt a b = true
  · rw [if_pos h]
    exact (max_eq_right ((pyLt_iff a b).mp h).le).symm
  · rw [if_neg h]
    have hnlt : ¬ toRat a < toRat b := fun hc => h ((pyLt_iff a b).mpr hc)
    exact (max_eq_left (le_of_not_lt hnlt)).symm

theorem toRat_min (a b : PyFloat) : toRat (pyMin a b) = min (toRat a) (toRat b) := by
  unfold pyMin
  by_cases h : pyLt b a = true
  · rw [if_pos h]
    exact (min_eq_right ((pyLt_iff b a).mp h).le).symm
  · rw [if_neg h]
    have hnlt : ¬ toRat b < toRat a := fun hc => h ((pyLt_iff b a).mpr hc)
    exact (min_eq_left (le_of_not_lt hnlt)).symm

theorem rheInt_ge (n : Int) (d : Nat) (hd : 0 < (d : Int)) (m : Int)
    (h : m * (d : Int) ≤ n) : m ≤ rheInt n d := by
  have hf : m ≤ n / (d : Int) := (Int.le_ediv_iff_mul_le hd).mpr h
  simp only [rheInt]
  split_ifs <;> linarith

theorem rheInt_le (n : Int) (d : Nat) (hd : 0 < (d : Int)) (m : Int)
    (h : n ≤ m * (d : Int)) : rheInt n d ≤ m := by
  have hf : n / (d : Int) ≤ m := by
    have h2 : n / (d : Int) ≤ m * (d : Int) / (d : Int) := Int.ediv_le_ediv hd h
    rwa [Int.mul_ediv_cancel _ (ne_of_gt hd)] at h2
  have hmn : 0 ≤ n % (d : Int) := Int.emod_nonneg n (ne_of_gt hd)
  have hr : n - n / (d : Int) * (d : Int) = n % (d : Int) := by
    have hc := Int.ediv_add_emod n (d : Int)
    have hcm : (d : Int) * (n / (d : Int)) = n / (d : Int) * (d : Int) := mul_comm _ _
    linarith
  simp only [rheInt]
  split_ifs with h1 h2 h3
  · exact hf
  · by_contra hcon
    push_neg at hcon
    have hfm : n / (d : Int) = m := le_antisymm hf (by omega)
    rw [← hfm] at h
    have hz : n % (d : Int) ≤ 0 := by linarith
    have hz2 : n % (d : Int) = 0 := le_antisymm hz hmn
    rw [hr, hz2] at h1
    simp only [mul_zero] at h1
    omega
  · exact hf
  · by_contra hcon
    push_neg at hcon
    have hfm : n / (d : Int) = m := le_antisymm hf (by omega)
    rw [← hfm] at h
    have hz : n % (d : Int) ≤ 0 := by linarith
    have hz2 : n % (d : Int) = 0 := le_antisymm hz hmn
    rw [hr, hz2] at h2
    simp only [mul_zero] at h2
    omega

theorem roundTo_den (k : Nat) (a : PyFloat) : (pyRoundTo k a).den = 10 ^ k := by
  show ((10 : Nat) ^ k - 1) + 1 = 10 ^ k
  have h : (1 : Nat) ≤ 10 ^ k := Nat.one_le_pow _ _ (by norm_num)
  omega

theorem toRat_roundTo (k : Nat) (a : PyFloat) :
    toRat (pyRoundTo k a) =
      ((rheInt (a.num * ((10 : Nat) ^ k : Nat)) a.den : Int) : ℚ) / (((10 : Nat) ^ k : Nat) : ℚ) := by
  unfold toRat
  rw [roundTo_den]
  rfl

theorem pow10_pos_q (k : Nat) : (0 : ℚ) < (((10 : Nat) ^ k : Nat) : ℚ) := by
  positivity

theorem toRat_roundTo_ge (k : Nat) (a : PyFloat) (c : Int)
    (h : (c : ℚ) ≤ toRat a * (((10 : Nat) ^ k : Nat) : ℚ)) :
    (c : ℚ) / (((10 : Nat) ^ k : Nat) : ℚ) ≤ toRat (pyRoundTo k a) := by
  have hint : c * (a.den : Int) ≤ a.num * ((10 : Nat) ^ k : Nat) := by
    rw [toRat_def, div_mul_eq_mul_div, le_div_iff₀ (den_pos_q a)] at h
    exact_mod_cast h
  have hge := rheInt_ge (a.num * ((10 : Nat) ^ k : Nat)) a.den
    (by exact_mod_cast den_pos a) c hint
  rw [toRat_roundTo]
  rw [div_le_div_iff_of_pos_right (pow10_pos_q k)]
  exact_mod_cast hge

theorem toRat_roundTo_le (k : Nat) (a : PyFloat) (c : Int)
    (h : toRat a * (((10 : Nat) ^ k : Nat) : ℚ) ≤ (c : ℚ)) :
    toRat (pyRoundTo k a) ≤ (c : ℚ) / (((10 : Nat) ^ k : Nat) : ℚ) := by
  have hint : a.num * ((10 : Nat) ^ k : Nat) ≤ c * (a.den : Int) := by
    rw [toRat_def, div_mul_eq_mul_div, div_le_iff₀ (den_pos_q a)] at h
    exact_mod_cast h
  have hle := rheInt_le (a.num * ((10 : Nat) ^ k : Nat)) a.den
    (by exact_mod_cast den_pos a) c hint
  rw [toRat_roundTo]
  rw [div_le_div_iff_of_pos_right (pow10_pos_q k)]
  exact_mod_cast hle

/-! ### Claim C2 (deduplication statistics) -/

/-- C2: `calculate_deduplication_stats` is claimed to group every event
by (joint, calendar date) and report the group count.  Because the
grouping statements are mis-indented into the `except` branch after the
loop, no group is ever formed when the last event's timestamp parses:
on two identical events with joint `J1` and date `2025-11-17` the code
returns `unique_events = 0`, `duplicates = 2`, a 100.00 duplication
rate and no recurrence entry, where the claim requires `unique_events =
1`, `duplicates = 1` and a recurrence entry of 2. -/
theorem C2_dedup_stats_bug :
    calculate_deduplication_stats [dedupSampleA, dedupSampleA] =
      ⟨2, 0, 2, some ⟨10000, 99⟩, []⟩ ∧
      dkey dedupSampleA = "J1_2025-11-17" := by
  constructor
  · rfl
  · rfl

/-! ### Claim C4 (error-code override of collision keywords) -/

/-- C4 counterexample: an event whose `error_code` contains the known
collision code `SRVO-324` but whose description contains the
soft-collision keyword `contact` is classified `soft_collision`, not
`hard_impact` — the keyword table is consulted before the error-code
literal, so the literal does not override keyword inference. -/
theorem C4_counterexample :
    _detect_collision_type rawContactSrvo = some "soft_collision" ∧
      _detect_collision_type rawContactSrvo ≠ some "hard_impact" ∧
      pyIn "SRVO-324" (pyUpper (rawContactSrvo.error_code.getD "")) = true := by
  refine ⟨rfl, ?_, rfl⟩
  decide

/-- C4 amended: when the error code contains `SRVO-324` and no entry of
the collision keyword table matches the description or error code,
`_detect_collision_type` returns `hard_impact`. -/
theorem C4_amended (ev : RawEvent)
    (hkw : scanCollisionKeywords (pyLower (ev.description.getD ""))
      (pyUpper (ev.error_code.getD "")) = none)
    (hec : pyIn "SRVO-324" (pyUpper (ev.error_code.getD "")) = true) :
    _detect_collision_type ev = some "hard_impact" := by
  unfold _detect_collision_type
  dsimp only
  rw [hkw, hec]
  rfl

/-- C4 amended witness at a concrete event. -/
theorem C4_amended_witness :
    _detect_collision_type rawFaultSrvo = some "hard_impact" :=
  C4_amended rawFaultSrvo (by decide) (by decide)

/-! ### Claim C5 (validate_schema on a record missing its timestamp) -/

/-- C5: `validate_schema` is claimed never to raise.  On a normalized
event whose dictionary has no `timestamp` key at all, the unguarded
`normalized_event["timestamp"]` lookup raises `KeyError` (the `except`
clause catches only `ValueError` and `AttributeError`), so the function
never returns the claimed `(ok, errors)` pair. -/
theorem C5_validate_keyerror :
    validate_schema nevNoTimestamp = Except.error "KeyError: timestamp" := rfl

/-! ### Claim C10 (mock analysis compares against uppercase labels) -/

/-- C10: `_mock_analysis` compares the severity field against the raw
uppercase labels, so a normalized event with the lowercase enum value
`critical`, no error code, no similar events and no `critical` text in
its description gets the default `MEDIUM` priority with risk score 50
instead of a critical-tier assessment. -/
theorem C10_mock_analysis (ev : MockEvent) (sim : Option (List (Option String)))
    (hsev : ev.severity = "critical") (hec : ev.error_code = "")
    (hsim : sim = none ∨ sim = some [])
    (hdesc : pyIn "CRITICAL" (pyUpper ev.description) = false) :
    (_mock_analysis ev sim).priority = "MEDIUM" ∧
      (_mock_analysis ev sim).risk_score = 50 := by
  unfold _mock_analysis
  rw [hsev, hec, hdesc]
  rcases hsim with h | h <;> rw [h] <;> exact ⟨rfl, rfl⟩

/-- C10 witness at a concrete normalized event. -/
theorem C10_mock_analysis_witness :
    (_mock_analysis { severity := "critical", description := "servo torque fault" } none).priority
        = "MEDIUM" ∧
      (_mock_analysis { severity := "critical", description := "servo torque fault" } none).risk_score
        = 50 :=
  C10_mock_analysis _ none rfl rfl (Or.inl rfl) (by decide)

/-! ### Claim C7 (force values are in range or absent, never clamped) -/

theorem toRat_le_of_pyLe {a b : PyFloat} (h : pyLe a b = true) : toRat a ≤ toRat b :=
  (pyLe_iff a b).mp h

theorem pyRound2_bounds (f : PyFloat) (h0 : pyLe (pyOfInt 0) f = true)
    (h1 : pyLe f (pyOfInt 10000) = true) :
    pyLe (pyOfInt 0) (pyRound2 f) = true ∧ pyLe (pyRound2 f) (pyOfInt 10000) = true := by
  have hf0 : (0 : ℚ) ≤ toRat f := by
    have := toRat_le_of_pyLe h0
    rwa [toRat_ofInt, Int.cast_zero] at this
  have hf1 : toRat f ≤ 10000 := by
    have := toRat_le_of_pyLe h1
    rwa [toRat_ofInt] at this
    
  constructor
  · rw [pyLe_iff, toRat_ofInt, Int.cast_zero]
    have hgain : ((0 : Int) : ℚ) ≤ toRat f * (((10 : Nat) ^ 2 : Nat) : ℚ) := by
      push_cast
      nlinarith
    have := toRat_roundTo_ge 2 f 0 hgain
    simpa using this
  · rw [pyLe_iff, toRat_ofInt]
    have hup : toRat f * (((10 : Nat) ^ 2 : Nat) : ℚ) ≤ ((1000000 : Int) : ℚ) := by
      push_cast
      nlinarith
    have := toRat_roundTo_le 2 f 1000000 hup
    have hq : ((1000000 : Int) : ℚ) / (((10 : Nat) ^ 2 : Nat) : ℚ) = 10000 := by
      norm_num
    rw [hq] at this
    exact_mod_cast this

/-- C7: `_extract_force_value` returns `None` or a value in
[0, 10000]; every candidate outside the range is discarded (the
function falls through to the next source) rather than clamped, so an
out-of-range force never reaches a normalized record. -/
theorem tryForceKey_bounds (ev : RawEvent) (k : String) (v : PyFloat)
    (h : tryForceKey ev k = some v) :
    pyLe (pyOfInt 0) v = true ∧ pyLe v (pyOfInt 10000) = true := by
  unfold tryForceKey at h
  split at h
  case h_1 q heq =>
    split at h
    case isTrue hcond =>
      rw [Bool.and_eq_true] at hcond
      injection h with hv
      subst hv
      exact pyRound2_bounds _ hcond.1 hcond.2
    case isFalse hcond => cases h
  case h_2 => cases h

/-- C7: `_extract_force_value` returns `None` or a value in
[0, 10000]; every candidate outside the range is discarded (the
function falls through to the next source) rather than clamped, so an
out-of-range force never reaches a normalized record. -/
theorem C7_force_range (ev : RawEvent) :
    _extract_force_value ev = none ∨
      ∃ v, _extract_force_value ev = some v ∧
        pyLe (pyOfInt 0) v = true ∧ pyLe v (pyOfInt 10000) = true := by
  unfold _extract_force_value
  cases hfs : forceKeys.findSome? (tryForceKey ev) with
  | some v =>
    obtain ⟨k, _, htk⟩ := List.exists_of_findSome?_eq_some hfs
    right
    exact ⟨v, rfl, tryForceKey_bounds ev k v htk⟩
  | none =>
    dsimp only
    cases hfn : findForceNum (pyLower (ev.description.getD "")).data with
    | some q =>
      dsimp only
      by_cases hcond : (pyLe (pyOfInt 0) q && pyLe q (pyOfInt 10000)) = true
      · right
        rw [Bool.and_eq_true] at hcond
        refine ⟨pyRound2 q, ?_, pyRound2_bounds _ hcond.1 hcond.2⟩
        rw [if_pos (Bool.and_eq_true _ _ ▸ hcond)]
      · left
        rw [if_neg hcond]
    | none => left; rfl

/-! ### Claim C8 (severity is monotone in the force value) -/

theorem sev_of_force (ev : RawEvent) (f : PyFloat)
    (h : _extract_force_value ev = some f) :
    _calculate_severity ev = stepSpecSeverity (toRat f) := by
  unfold _calculate_severity stepSpecSeverity
  rw [h]
  dsimp only
  have h3 : (pyLt f (pyOfInt 300) = true) ↔ (toRat f < 300) := by
    rw [pyLt_iff, toRat_ofInt]; norm_num
  have h6 : (pyLt f (pyOfInt 600) = true) ↔ (toRat f < 600) := by
    rw [pyLt_iff, toRat_ofInt]; norm_num
  have h8 : (pyLt f (pyOfInt 800) = true) ↔ (toRat f < 800) := by
    rw [pyLt_iff, toRat_ofInt]; norm_num
  by_cases hc3 : toRat f < 300
  · rw [if_pos (h3.mpr hc3), if_pos hc3]
  · rw [if_neg (fun hh => hc3 (h3.mp hh)), if_neg hc3]
    by_cases hc6 : toRat f < 600
    · rw [if_pos (h6.mpr hc6), if_pos hc6]
    · rw [if_neg (fun hh => hc6 (h6.mp hh)), if_neg hc6]
      by_cases hc8 : toRat f < 800
      · rw [if_pos (h8.mpr hc8), if_pos hc8]
      · rw [if_neg (fun hh => hc8 (h8.mp hh)), if_neg hc8]

theorem stepSpec_rank_mono (x y : ℚ) (h : x ≤ y) :
    sevRank (stepSpecSeverity x) ≤ sevRank (stepSpecSeverity y) := by
  unfold stepSpecSeverity
  split_ifs <;> simp [sevRank] <;> linarith

/-- C8: with forces f1 &lt; f2 extracted for two otherwise arbitrary
events, the computed severities are ordered (low &lt; med &lt; high &lt;
critical) and each one follows the step function &lt;300 low, &lt;600
med, &lt;800 high, ≥800 critical. -/
theorem C8_severity_monotone (e1 e2 : RawEvent) (f1 f2 : PyFloat)
    (h1 : _extract_force_value e1 = some f1)
    (h2 : _extract_force_value e2 = some f2)
    (hlt : pyLt f1 f2 = true) :
    sevRank (_calculate_severity e1) ≤ sevRank (_calculate_severity e2) ∧
      _calculate_severity e1 = stepSpecSeverity (toRat f1) ∧
      _calculate_severity e2 = stepSpecSeverity (toRat f2) := by
  have hs1 := sev_of_force e1 f1 h1
  have hs2 := sev_of_force e2 f2 h2
  refine ⟨?_, hs1, hs2⟩
  rw [hs1, hs2]
  exact stepSpec_rank_mono _ _ ((pyLt_iff f1 f2).mp hlt).le

/-- C8 witness: forces 200 and 700 give severities low and high. -/
theorem C8_severity_monotone_witness :
    sevRank (_calculate_severity { data := [("force", DVal.dnum ⟨200, 0⟩)] }) ≤
        sevRank (_calculate_severity { data := [("force", DVal.dnum ⟨700, 0⟩)] }) ∧
      _calculate_severity { data := [("force", DVal.dnum ⟨200, 0⟩)] } =
        stepSpecSeverity (toRat ⟨20000, 99⟩) ∧
      _calculate_severity { data := [("force", DVal.dnum ⟨700, 0⟩)] } =
        stepSpecSeverity (toRat ⟨70000, 99⟩) :=
  C8_severity_monotone _ _ ⟨20000, 99⟩ ⟨70000, 99⟩ (by decide) (by decide) (by decide)

/-! ### Claim C1 (critical severity scoring floor) -/

theorem pyLe_80_round2 (x : PyFloat) (h : (80 : ℚ) ≤ toRat x) :
    pyLe (pyOfInt 80) (pyRound2 x) = true := by
  rw [pyLe_iff, toRat_ofInt]
  have h8 : ((8000 : Int) : ℚ) ≤ toRat x * (((10 : Nat) ^ 2 : Nat) : ℚ) := by
    push_cast
    nlinarith
  have hge := toRat_roundTo_ge 2 x 8000 h8
  have hq : ((8000 : Int) : ℚ) / (((10 : Nat) ^ 2 : Nat) : ℚ) = 80 := by norm_num
  rw [hq] at hge
  exact_mod_cast hge

/-- The critical base score is at least 80 whatever the oracle said. -/
theorem criticalBase_ge (A : PyFloat) (rec : Int) :
    (80 : ℚ) ≤ toRat (criticalBase A rec) := by
  unfold criticalBase
  dsimp only
  split_ifs
  · rw [toRat_ofInt]; norm_num
  · rw [toRat_min, toRat_add, toRat_max, toRat_ofInt, toRat_ofInt, toRat_ofInt]
    push_cast
    rw [le_min_iff]
    constructor
    · have := le_max_right (toRat A) ((80 : Int) : ℚ)
      push_cast at this
      linarith
    · norm_num
  · rw [toRat_min, toRat_add, toRat_max, toRat_ofInt, toRat_ofInt, toRat_ofInt]
    push_cast
    rw [le_min_iff]
    constructor
    · have := le_max_right (toRat A) ((80 : Int) : ℚ)
      push_cast at this
      linarith
    · norm_num
  · rw [toRat_max, toRat_ofInt]
    push_cast
    exact le_max_right _ _

/-- The similarity adjustment never decreases the base score. -/
theorem similarityBoost_ge (sim : Option (List (Option PyFloat))) (base : PyFloat) :
    toRat base ≤ toRat (similarityBoost sim base) := by
  unfold similarityBoost
  rcases sim with _ | (_ | ⟨s, rest⟩)
  · exact le_refl _
  · exact le_refl _
  · dsimp only
    split_ifs
    · rw [toRat_add, toRat_ofInt]
      push_cast
      linarith
    · exact le_refl _

/-- C1: for every event whose severity field is exactly `critical`, and
every oracle result, recurrence count and similar-events list,
`score_event` returns a final score of at least 80 and priority
`CRITICAL`. -/
theorem C1_critical_floor (ai : AIResult) (ev : ScoreEvent)
    (sim : Option (List (Option PyFloat))) (hsev : ev.severity = some "critical") :
    pyLe (pyOfInt 80) (score_event ai ev sim).score = true ∧
      (score_event ai ev sim).priority = "CRITICAL" := by
  have hs : pyStrip (pyLower (ev.severity.getD "")) = "critical" := by
    rw [hsev]
    rfl
  unfold score_event
  dsimp only
  rw [hs]
  simp only [eq_self_iff_true, if_true]
  refine ⟨?_, trivial⟩
  refine pyLe_80_round2 _ ?_
  rw [toRat_min, toRat_max, toRat_ofInt, toRat_ofInt]
  push_cast
  rw [le_min_iff]
  have hb := criticalBase_ge (ai.risk_score.getD (pyOfInt 50)) (ev.recurrence_count.getD 0)
  have hboost := similarityBoost_ge sim (criticalBase (ai.risk_score.getD (pyOfInt 50))
    (ev.recurrence_count.getD 0))
  constructor
  · exact le_trans (le_trans hb hboost) (le_max_left _ _)
  · norm_num

/-- C1 witness: a concrete critical event with the oracle returning
risk score 0 and no similar events. -/
theorem C1_critical_floor_witness :
    pyLe (pyOfInt 80)
        (score_event { risk_score := some (pyOfInt 0) } { severity := some "critical" } none).score
        = true ∧
      (score_event { risk_score := some (pyOfInt 0) } { severity := some "critical" } none).priority
        = "CRITICAL" :=
  C1_critical_floor { risk_score := some (pyOfInt 0) } { severity := some "critical" } none rfl

/-! ### Claim C9 (similarity results: threshold, order, limit,
self-exclusion) -/

instance : IsTrans SimMatch simGE :=
  ⟨fun a b c hab hbc => by
    unfold simGE at *
    rw [pyLe_iff] at *
    exact le_trans hbc hab⟩

instance : IsTotal SimMatch simGE :=
  ⟨fun a b => by
    unfold simGE
    rcases le_total (toRat b.similarity_score) (toRat a.similarity_score) with h | h
    · exact Or.inl ((pyLe_iff _ _).mpr h)
    · exact Or.inr ((pyLe_iff _ _).mpr h)⟩

theorem mem_simCandidates {textSim : String → String → PyFloat} {cur : HistEv}
    {pool : List HistEv} {m : SimMatch} (h : m ∈ simCandidates textSim cur pool) :
    ∃ ev ∈ pool, skipSelf cur ev = false ∧
      pyLe ⟨3, 9⟩ (simScore textSim cur ev) = true ∧
      m = ⟨ev, pyRound3 (simScore textSim cur ev)⟩ := by
  unfold simCandidates at h
  rw [List.mem_filterMap] at h
  obtain ⟨ev, hev, hf⟩ := h
  by_cases hskip : skipSelf cur ev = true
  · rw [if_pos hskip] at hf
    cases hf
  · rw [if_neg hskip] at hf
    dsimp only at hf
    by_cases hth : pyLe ⟨3, 9⟩ (simScore textSim cur ev) = true
    · rw [if_pos hth] at hf
      injection hf with hm
      exact ⟨ev, hev, Bool.not_eq_true _ ▸ hskip, hth, hm.symm⟩
    · rw [if_neg hth] at hf
      cases hf

theorem round3_threshold (s : PyFloat) (h : pyLe ⟨3, 9⟩ s = true) :
    pyLe ⟨3, 9⟩ (pyRound3 s) = true := by
  rw [pyLe_iff] at h ⊢
  have h3 : toRat ⟨3, 9⟩ = 3 / 10 := by
    unfold toRat PyFloat.den
    norm_num
  rw [h3] at h ⊢
  have h300 : ((300 : Int) : ℚ) ≤ toRat s * (((10 : Nat) ^ 3 : Nat) : ℚ) := by
    push_cast
    linarith
  have hge := toRat_roundTo_ge 3 s 300 h300
  have hq : ((300 : Int) : ℚ) / (((10 : Nat) ^ 3 : Nat) : ℚ) = 3 / 10 := by norm_num
  rw [hq] at hge
  exact hge

theorem skipSelf_false_record {cur ev : HistEv} (h : skipSelf cur ev = false)
    (hrid : cur.record_id ≠ "") : ev.record_id ≠ cur.record_id := by
  unfold skipSelf at h
  rw [Bool.or_eq_false_iff] at h
  have h2 := h.2
  rw [Bool.and_eq_false_iff] at h2
  intro heq
  rcases h2 with h2 | h2
  · rw [decide_eq_false_iff_not] at h2
    exact h2 hrid
  · rw [beq_eq_false_iff_ne] at h2
    exact h2 heq

theorem skipSelf_false_event {cur ev : HistEv} (h : skipSelf cur ev = false)
    (heid : effEvId cur ≠ "") : effEvId ev ≠ effEvId cur := by
  unfold skipSelf at h
  rw [Bool.or_eq_false_iff] at h
  have h1 := h.1
  rw [Bool.and_eq_false_iff] at h1
  intro heq
  rcases h1 with h1 | h1
  · rw [decide_eq_false_iff_not] at h1
    exact h1 heid
  · rw [beq_eq_false_iff_ne] at h1
    exact h1 heq

/-- C9: `find_similar_events` returns at most `limit` matches, sorted
descending by stored similarity score with ties kept in pool order (for
every score value, the matches carrying it form a sublist of the
candidate list, which is in pool order), every returned match has
similarity score at least 0.3, and an event carrying the target's own
record id or (effective) event id never appears.  The statement is
universally quantified over the text-similarity ratio function, so it
covers `difflib.SequenceMatcher`. -/
theorem C9_find_similar (textSim : String → String → PyFloat) (cur : HistEv)
    (pool : List HistEv) (limit : Nat) :
    (find_similar_events textSim cur pool limit).length ≤ limit ∧
      List.Pairwise simGE (find_similar_events textSim cur pool limit) ∧
      (∀ qv : PyFloat,
        List.Sublist
          ((find_similar_events textSim cur pool limit).filter
            (fun m => pyBeq m.similarity_score qv))
          ((simCandidates textSim cur pool).filter
            (fun m => pyBeq m.similarity_score qv))) ∧
      ∀ m ∈ find_similar_events textSim cur pool limit,
        pyLe ⟨3, 9⟩ m.similarity_score = true ∧
          (cur.record_id ≠ "" → m.ev.record_id ≠ cur.record_id) ∧
          (effEvId cur ≠ "" → effEvId m.ev ≠ effEvId cur) := by
  refine ⟨?_, ?_, ?_, ?_⟩
  · unfold find_similar_events
    rw [List.length_take]
    exact min_le_left _ _
  · unfold find_similar_events
    have hsorted := List.sorted_insertionSort simGE (simCandidates textSim cur pool)
    exact List.Pairwise.sublist (List.take_sublist _ _) hsorted
  · intro qv
    unfold find_similar_events
    have hall : ∀ a ∈ (simCandidates textSim cur pool).filter
        (fun m => pyBeq m.similarity_score qv),
        ∀ b ∈ (simCandidates textSim cur pool).filter
          (fun m => pyBeq m.similarity_score qv), simGE a b := by
      intro a ha b hb
      have hpa := (List.mem_filter.mp ha).2
      have hpb := (List.mem_filter.mp hb).2
      unfold simGE
      rw [pyLe_iff, (pyBeq_iff _ _).mp hpa, (pyBeq_iff _ _).mp hpb]
    have hc_pair := List.pairwise_of_forall_mem_list hall
    have hc_sub : List.Sublist ((simCandidates textSim cur pool).filter
        (fun m => pyBeq m.similarity_score qv))
        (List.insertionSort simGE (simCandidates textSim cur pool)) :=
      List.sublist_insertionSort hc_pair (List.filter_sublist _)
    have hc_idem : ((simCandidates textSim cur pool).filter
        (fun m => pyBeq m.similarity_score qv)).filter
          (fun m => pyBeq m.similarity_score qv) =
        (simCandidates textSim cur pool).filter
          (fun m => pyBeq m.similarity_score qv) := by
      rw [List.filter_eq_self]
      intro a ha
      exact (List.mem_filter.mp ha).2
    have hc_sub2 : List.Sublist ((simCandidates textSim cur pool).filter
        (fun m => pyBeq m.similarity_score qv))
        ((List.insertionSort simGE (simCandidates textSim cur pool)).filter
          (fun m => pyBeq m.similarity_score qv)) := by
      rw [← hc_idem]
      exact hc_sub.filter _
    have hlen : ((List.insertionSort simGE (simCandidates textSim cur pool)).filter
        (fun m => pyBeq m.similarity_score qv)).length =
        ((simCandidates textSim cur pool).filter
          (fun m => pyBeq m.similarity_score qv)).length :=
      ((List.perm_insertionSort simGE (simCandidates textSim cur pool)).filter
        _).length_eq
    have heq : (simCandidates textSim cur pool).filter
        (fun m => pyBeq m.similarity_score qv) =
        (List.insertionSort simGE (simCandidates textSim cur pool)).filter
          (fun m => pyBeq m.similarity_score qv) :=
      hc_sub2.eq_of_length hlen.symm
    rw [heq]
    exact (List.take_sublist _ _).filter _
  · intro m hm
    unfold find_similar_events at hm
    have hm2 : m ∈ List.insertionSort simGE (simCandidates textSim cur pool) :=
      List.mem_of_mem_take hm
    have hm3 : m ∈ simCandidates textSim cur pool :=
      (List.perm_insertionSort simGE _).mem_iff.mp hm2
    obtain ⟨ev, _, hskip, hth, rfl⟩ := mem_simCandidates hm3
    exact ⟨round3_threshold _ hth,
      fun hrid => skipSelf_false_record hskip hrid,
      fun heid => skipSelf_false_event hskip heid⟩

/-- C9 witness: a two-event pool where one event is the target itself
(matched by record id) and the other qualifies by event-type match. -/
theorem C9_find_similar_witness :
    pyLe ⟨3, 9⟩
        (SimMatch.mk { event_type := "error_log", record_id := "r1" } ⟨400, 999⟩).similarity_score
        = true ∧
      (({ event_type := "error_log", record_id := "r0" } : HistEv).record_id ≠ "" →
        (SimMatch.mk { event_type := "error_log", record_id := "r1" } ⟨400, 999⟩).ev.record_id ≠
          ({ event_type := "error_log", record_id := "r0" } : HistEv).record_id) ∧
      (effEvId { event_type := "error_log", record_id := "r0" } ≠ "" →
        effEvId (SimMatch.mk { event_type := "error_log", record_id := "r1" } ⟨400, 999⟩).ev ≠
          effEvId { event_type := "error_log", record_id := "r0" }) :=
  (C9_find_similar (fun _ _ => ⟨0, 0⟩) { event_type := "error_log", record_id := "r0" }
    [{ event_type := "error_log", record_id := "r0" },
      { event_type := "error_log", record_id := "r1" }] 10).2.2.2
    (SimMatch.mk { event_type := "error_log", record_id := "r1" } ⟨400, 999⟩) (by decide)

/-! ### Claim C3 (`_deduplicate_events` drops nothing and assigns group
cardinalities) -/

theorem dkey_setRec {α : Type} (n : Nat) (e : DedupEv α) :
    dkey (setRec n e) = dkey e := rfl

theorem applyGroup_eq {α : Type} (k : String) (g : List (DedupEv α)) :
    applyGroup (k, g) = g.map (setRec g.length) := by
  unfold applyGroup
  rcases g with _ | ⟨x, _ | ⟨y, t⟩⟩
  · simp
  · simp
  · rw [if_pos (by simp only [List.length_cons]; omega)]

theorem insertGrp_keys_mem {α : Type} (k : String) (e : DedupEv α) :
    ∀ gs : List (String × List (DedupEv α)), ∀ k0 ∈ gs.map Prod.fst,
      k0 ∈ (insertGrp k e gs).map Prod.fst := by
  intro gs
  induction gs with
  | nil => intro k0 h; cases h
  | cons p rest ih =>
    intro k0 h
    unfold insertGrp
    by_cases hk : p.1 = k
    · rw [if_pos hk]
      simpa using h
    · rw [if_neg hk]
      rcases List.mem_cons.mp h with h | h
      · simp [h]
      · simp only [List.map_cons, List.mem_cons]
        exact Or.inr (ih k0 h)

theorem insertGrp_key_self {α : Type} (k : String) (e : DedupEv α) :
    ∀ gs : List (String × List (DedupEv α)), k ∈ (insertGrp k e gs).map Prod.fst := by
  intro gs
  induction gs with
  | nil => simp [insertGrp]
  | cons p rest ih =>
    unfold insertGrp
    by_cases hk : p.1 = k
    · rw [if_pos hk]
      simp [hk]
    · rw [if_neg hk]
      simp only [List.map_cons, List.mem_cons]
      exact Or.inr ih

theorem insertGrp_keys_sub {α : Type} (k : String) (e : DedupEv α) :
    ∀ gs : List (String × List (DedupEv α)), ∀ k0 ∈ (insertGrp k e gs).map Prod.fst,
      k0 ∈ gs.map Prod.fst ∨ k0 = k := by
  intro gs
  induction gs with
  | nil =>
    intro k0 h
    simp [insertGrp] at h
    exact Or.inr h
  | cons p rest ih =>
    intro k0 h
    unfold insertGrp at h
    by_cases hk : p.1 = k
    · rw [if_pos hk] at h
      simp only [List.map_cons, List.mem_cons] at h ⊢
      rcases h with h | h
      · exact Or.inl (Or.inl h)
      · exact Or.inl (Or.inr h)
    · rw [if_neg hk] at h
      simp only [List.map_cons, List.mem_cons] at h ⊢
      rcases h with h | h
      · exact Or.inl (Or.inl h)
      · rcases ih k0 h with h | h
        · exact Or.inl (Or.inr h)
        · exact Or.inr h

theorem insertGrp_nodup {α : Type} (k : String) (e : DedupEv α) :
    ∀ gs : List (String × List (DedupEv α)), (gs.map Prod.fst).Nodup →
      ((insertGrp k e gs).map Prod.fst).Nodup := by
  intro gs
  induction gs with
  | nil => intro _; simp [insertGrp]
  | cons p rest ih =>
    intro hnd
    simp only [List.map_cons, List.nodup_cons] at hnd
    unfold insertGrp
    by_cases hk : p.1 = k
    · rw [if_pos hk]
      simp only [List.map_cons, List.nodup_cons]
      exact hnd
    · rw [if_neg hk]
      simp only [List.map_cons, List.nodup_cons]
      refine ⟨?_, ih hnd.2⟩
      intro hmem
      rcases insertGrp_keys_sub k e rest p.1 hmem with h | h
      · exact hnd.1 h
      · exact hk h

theorem insertGrp_filter {α : Type} (e : DedupEv α) (pfx : List (DedupEv α)) :
    ∀ gs : List (String × List (DedupEv α)),
      (∀ p ∈ gs, p.2 = pfx.filter (fun x => dkey x == p.1)) →
      (gs.map Prod.fst).Nodup →
      (dkey e ∉ gs.map Prod.fst → pfx.filter (fun x => dkey x == dkey e) = []) →
      ∀ p ∈ insertGrp (dkey e) e gs,
        p.2 = (pfx ++ [e]).filter (fun x => dkey x == p.1) := by
  intro gs
  induction gs with
  | nil =>
    intro _ _ hmiss p hp
    simp only [insertGrp, List.mem_singleton] at hp
    subst hp
    rw [List.filter_append]
    rw [hmiss (by simp)]
    simp
  | cons q rest ih =>
    intro hA hnd hmiss p hp
    simp only [List.map_cons, List.nodup_cons] at hnd
    unfold insertGrp at hp
    by_cases hk : q.1 = dkey e
    · rw [if_pos hk] at hp
      rcases List.mem_cons.mp hp with hp | hp
      · subst hp
        rw [List.filter_append]
        have hq2 := hA q (by simp)
        simp only [hk]
        rw [← hk]
        rw [← hq2]
        simp [hk]
      · have hp2 := hA p (List.mem_cons_of_mem _ hp)
        rw [List.filter_append, hp2]
        have hne : dkey e ≠ p.1 := by
          intro hcontra
          apply hnd.1
          rw [hk, hcontra]
          exact List.mem_map_of_mem Prod.fst hp
        simp [beq_eq_false_iff_ne.mpr hne]
    · rw [if_neg hk] at hp
      rcases List.mem_cons.mp hp with hp | hp
      · subst hp
        rw [List.filter_append]
        have hq2 := hA q (by simp)
        have hne : dkey e ≠ q.1 := fun hcontra => hk hcontra.symm
        rw [← hq2]
        simp [beq_eq_false_iff_ne.mpr hne]
      · refine ih (fun r hr => hA r (List.mem_cons_of_mem _ hr)) hnd.2 ?_ p hp
        intro hnotin
        apply hmiss
        intro hcontra
        rw [List.map_cons] at hcontra
        rcases List.mem_cons.mp hcontra with h | h
        · exact hk h.symm
        · exact hnotin h

theorem groupByKey_loop {α : Type} :
    ∀ (l pfx : List (DedupEv α)) (gs : List (String × List (DedupEv α))),
      (∀ p ∈ gs, p.2 = pfx.filter (fun x => dkey x == p.1)) →
      (gs.map Prod.fst).Nodup →
      (∀ x ∈ pfx, dkey x ∈ gs.map Prod.fst) →
      (∀ p ∈ l.foldl (fun acc e => insertGrp (dkey e) e acc) gs,
        p.2 = (pfx ++ l).filter (fun x => dkey x == p.1)) ∧
      ((l.foldl (fun acc e => insertGrp (dkey e) e acc) gs).map Prod.fst).Nodup ∧
      (∀ x ∈ pfx ++ l, dkey x ∈
        (l.foldl (fun acc e => insertGrp (dkey e) e acc) gs).map Prod.fst) := by
  intro l
  induction l with
  | nil =>
    intro pfx gs hA hB hC
    simp only [List.foldl_nil, List.append_nil]
    exact ⟨hA, hB, hC⟩
  | cons e l' ih =>
    intro pfx gs hA hB hC
    have hmiss : dkey e ∉ gs.map Prod.fst →
        pfx.filter (fun x => dkey x == dkey e) = [] := by
      intro hnot
      rw [List.filter_eq_nil_iff]
      intro x hx hbeq
      exact hnot (beq_iff_eq.mp hbeq ▸ hC x hx)
    have hA' := insertGrp_filter e pfx gs hA hB hmiss
    have hB' := insertGrp_nodup (dkey e) e gs hB
    have hC' : ∀ x ∈ pfx ++ [e], dkey x ∈ (insertGrp (dkey e) e gs).map Prod.fst := by
      intro x hx
      rcases List.mem_append.mp hx with hx | hx
      · exact insertGrp_keys_mem (dkey e) e gs (dkey x) (hC x hx)
      · rw [List.mem_singleton.mp hx]
        exact insertGrp_key_self (dkey e) e gs
    have hres := ih (pfx ++ [e]) (insertGrp (dkey e) e gs) hA' hB' hC'
    simp only [List.foldl_cons]
    rw [show pfx ++ e :: l' = (pfx ++ [e]) ++ l' by simp]
    exact hres

theorem groupByKey_inv {α : Type} (events : List (DedupEv α)) :
    (∀ p ∈ groupByKey events, p.2 = events.filter (fun x => dkey x == p.1)) ∧
      ((groupByKey events).map Prod.fst).Nodup ∧
      (∀ x ∈ events, dkey x ∈ (groupByKey events).map Prod.fst) := by
  have h := groupByKey_loop events [] [] (by intro p hp; cases hp) (by simp)
    (by intro x hx; cases hx)
  simpa [groupByKey] using h

theorem flatMap_congr_mem {α β : Type} {l : List α} {f g : α → List β}
    (h : ∀ a ∈ l, f a = g a) : l.flatMap f = l.flatMap g := by
  induction l with
  | nil => rfl
  | cons x xs ih =>
    simp only [List.flatMap_cons]
    rw [h x (by simp), ih (fun a ha => h a (by simp [ha]))]

theorem flatMap_filter_perm {β : Type} (dk : β → String) :
    ∀ (keys : List String) (m : List β), keys.Nodup →
      (∀ x ∈ m, dk x ∈ keys) →
      (keys.flatMap (fun k => m.filter (fun x => dk x == k))).Perm m := by
  intro keys
  induction keys with
  | nil =>
    intro m _ hall
    have : m = [] := List.eq_nil_iff_forall_not_mem.mpr (fun x hx => by cases hall x hx)
    simp [this]
  | cons k ks ih =>
    intro m hnd hall
    simp only [List.nodup_cons] at hnd
    simp only [List.flatMap_cons]
    have hrest : ks.flatMap (fun k' => m.filter (fun x => dk x == k')) =
        ks.flatMap (fun k' => (m.filter (fun x => !(dk x == k))).filter
          (fun x => dk x == k')) := by
      refine flatMap_congr_mem ?_
      intro k' hk'
      rw [List.filter_filter]
      refine (List.filter_congr ?_).symm
      intro x _
      have hk'k : k' ≠ k := fun hc => hnd.1 (hc ▸ hk')
      by_cases hx : dk x = k'
      · have hxk : dk x ≠ k := fun hc => hk'k (hx ▸ hc)
        simp [hx, beq_eq_false_iff_ne.mpr hxk, hk'k]
      · simp [beq_eq_false_iff_ne.mpr hx]
    rw [hrest]
    have hcomp : ∀ x ∈ m.filter (fun x => !(dk x == k)), dk x ∈ ks := by
      intro x hx
      have hx1 := List.mem_filter.mp hx
      have hx2 : dk x ≠ k := by
        have hb := hx1.2
        simp only [Bool.not_eq_true'] at hb
        exact beq_eq_false_iff_ne.mp hb
      rcases List.mem_cons.mp (hall x hx1.1) with h | h
      · exact absurd h hx2
      · exact h
    have hih := ih (m.filter (fun x => !(dk x == k))) hnd.2 hcomp
    exact List.Perm.trans (List.Perm.append_left _ hih) (List.filter_append_perm _ m)

/-- C3: `_deduplicate_events` drops no event — its output is a
permutation of the input — and every event comes out with
`recurrence_count` set to the number of input events sharing its
(joint, calendar-date) group key, so members of one group all carry the
group's cardinality and a singleton group's event gets 1. -/
theorem C3_dedup_recurrence {α : Type} (events : List (DedupEv α)) :
    (_deduplicate_events events).Perm
      (events.map (fun e => setRec (events.countP (fun x => dkey x == dkey e)) e)) := by
  obtain ⟨hA, hB, hC⟩ := groupByKey_inv events
  unfold _deduplicate_events
  have happ : ∀ p ∈ groupByKey events,
      applyGroup p = (events.map (fun e =>
        setRec (events.countP (fun x => dkey x == dkey e)) e)).filter
          (fun x => dkey x == p.1) := by
    intro p hp
    rcases p with ⟨k, g⟩
    have hg := hA _ hp
    dsimp only at hg
    rw [applyGroup_eq, hg]
    have hlen : (events.filter (fun x => dkey x == k)).length =
        events.countP (fun x => dkey x == k) :=
      (List.countP_eq_length_filter _ _).symm
    rw [hlen]
    have hmapc : (events.filter (fun x => dkey x == k)).map
        (setRec (events.countP (fun x => dkey x == k))) =
        (events.filter (fun x => dkey x == k)).map (fun e =>
          setRec (events.countP (fun x => dkey x == dkey e)) e) := by
      refine List.map_congr_left ?_
      intro x hx
      have hdk : dkey x = k := beq_iff_eq.mp (List.mem_filter.mp hx).2
      rw [hdk]
    rw [hmapc]
    rw [List.filter_map]
    rfl
  rw [flatMap_congr_mem happ]
  have hflat : (groupByKey events).flatMap (fun p =>
      (events.map (fun e =>
        setRec (events.countP (fun x => dkey x == dkey e)) e)).filter
          (fun x => dkey x == p.1)) =
      ((groupByKey events).map Prod.fst).flatMap (fun k =>
        (events.map (fun e =>
          setRec (events.countP (fun x => dkey x == dkey e)) e)).filter
            (fun x => dkey x == k)) := by
    rw [List.flatMap_map]
  rw [hflat]
  refine flatMap_filter_perm dkey ((groupByKey events).map Prod.fst) _ hB ?_
  intro x hx
  rw [List.mem_map] at hx
  obtain ⟨e, he, rfl⟩ := hx
  rw [dkey_setRec]
  exact hC e he

/-! ### Claim C6 (timestamp normalization and the "inferred" note) -/

theorem mkDT_valid {acc : StrpAcc} {dt : PyDateTime} (h : mkDT acc = some dt) :
    ValidDT dt := by
  unfold mkDT at h
  split at h
  case isTrue hc =>
    injection h with h
    subst h
    exact hc
  case isFalse => cases h

theorem strptimeDT_valid {s : String} {toks : List FTok} {dt : PyDateTime}
    (h : strptimeDT s toks = some dt) : ValidDT dt := by
  unfold strptimeDT at h
  rcases hopt : runFmt toks s.data {} with _ | acc
  · rw [hopt] at h
    cases h
  · rw [hopt] at h
    exact mkDT_valid h

theorem applyFmtPost_valid {now dt : PyDateTime} {f : TSFormat}
    (hnow : ValidDT now) (hdt : ValidDT dt) : ValidDT (applyFmtPost now f dt) := by
  unfold applyFmtPost
  obtain ⟨n1, n2, n3, n4, n5, n6, n7, n8, n9, n10⟩ := hnow
  obtain ⟨d1, d2, d3, d4, d5, d6, d7, d8, d9, d10⟩ := hdt
  split_ifs
  · exact ⟨n1, n2, n3, n4, n5, n6, d7, d8, d9, d10⟩
  · exact ⟨d1, d2, d3, d4, d5, d6, by norm_num, by norm_num, by norm_num, d10⟩
  · exact ⟨d1, d2, d3, d4, d5, d6, d7, d8, d9, d10⟩

theorem tryFormats_valid {now dt : PyDateTime} (hnow : ValidDT now) :
    ∀ (fs : List TSFormat) (s : String), tryFormats now fs s = some dt → ValidDT dt := by
  intro fs
  induction fs with
  | nil => intro s h; cases h
  | cons f fs ih =>
    intro s h
    unfold tryFormats at h
    rcases hsp : strptimeDT s f.toks with _ | dt0
    · rw [hsp] at h
      exact ih s h
    · rw [hsp] at h
      injection h with h
      subst h
      exact applyFmtPost_valid hnow (strptimeDT_valid hsp)

theorem zeroTime_valid {dt : PyDateTime} (hdt : ValidDT dt) :
    ValidDT { dt with hour := 0, minute := 0, second := 0 } := by
  obtain ⟨d1, d2, d3, d4, d5, d6, _, _, _, d10⟩ := hdt
  exact ⟨d1, d2, d3, d4, d5, d6, by norm_num, by norm_num, by norm_num, d10⟩

theorem todayDate_valid {now dt : PyDateTime} (hnow : ValidDT now) (hdt : ValidDT dt) :
    ValidDT { dt with year := now.year, month := now.month, day := now.day } := by
  obtain ⟨n1, n2, n3, n4, n5, n6, _, _, _, _⟩ := hnow
  obtain ⟨_, _, _, _, _, _, d7, d8, d9, d10⟩ := hdt
  exact ⟨n1, n2, n3, n4, n5, n6, d7, d8, d9, d10⟩

theorem normalize_timestamp_valid (now : PyDateTime) (ts : Option String)
    (hnow : ValidDT now) :
    ∃ dt, ValidDT dt ∧ _normalize_timestamp now ts = isoformat dt := by
  unfold _normalize_timestamp
  rcases ts with _ | t
  · exact ⟨now, hnow, rfl⟩
  · dsimp only
    rcases htry : tryFormats now tsFormats (String.mk (bracketStrip (pyStrip t).data)) with
      _ | dt
    · rcases hfd : findDate10 (String.mk (bracketStrip (pyStrip t).data)).data with _ | dcs
      · rcases hft : findTime (String.mk (bracketStrip (pyStrip t).data)).data with _ | tcs
        · exact ⟨now, hnow, rfl⟩
        · dsimp only
          by_cases hlen : (tcs.length == 8) = true
          · rw [if_pos hlen]
            rcases hsp : strptimeDT (String.mk tcs) fmtHMS with _ | dt0
            · exact ⟨now, hnow, rfl⟩
            · exact ⟨{ dt0 with year := now.year, month := now.month, day := now.day },
                todayDate_valid hnow (strptimeDT_valid hsp), rfl⟩
          · rw [if_neg hlen]
            rcases hsp : strptimeDT (String.mk tcs) fmtHM with _ | dt0
            · exact ⟨now, hnow, rfl⟩
            · exact ⟨{ dt0 with year := now.year, month := now.month, day := now.day },
                todayDate_valid hnow (strptimeDT_valid hsp), rfl⟩
      · rcases hft : findTime (String.mk (bracketStrip (pyStrip t).data)).data with _ | tcs
        · dsimp only
          rcases hsp : strptimeDT
              (String.mk (dcs.map (fun c => if c == '/' then '-' else c))) fmtYmdDash with
            _ | dt0
          · exact ⟨now, hnow, rfl⟩
          · exact ⟨{ dt0 with hour := 0, minute := 0, second := 0 },
              zeroTime_valid (strptimeDT_valid hsp), rfl⟩
        · dsimp only
          rcases hsp : strptimeDT
              (String.mk ((dcs.map (fun c => if c == '/' then '-' else c)) ++ [' '] ++ tcs))
              fmtYmdHMSdash with _ | dt0
          · exact ⟨now, hnow, rfl⟩
          · exact ⟨dt0, strptimeDT_valid hsp, rfl⟩
    · exact ⟨dt, tryFormats_valid hnow tsFormats _ htry, rfl⟩

/-- C6 counterexample: a present but unparseable timestamp falls back
to the current time, yet `_generate_notes` emits no "inferred" note for
the event (its note condition tests only whether the field is missing
or empty). -/
theorem C6_counterexample :
    _normalize_timestamp nowSample (some "birthday party") = isoformat nowSample ∧
      pyIn "inferred" (_generate_notes rawBadTimestamp) = false ∧
      rawBadTimestamp.timestamp = some "birthday party" := by
  refine ⟨?_, ?_, rfl⟩
  · rfl
  · decide

/-- C6 amended: `_normalize_timestamp` always returns the ISO form of a
valid calendar datetime; when no known format matches and the
date/time regexes find nothing it falls back to the current time; but
the "Timestamp inferred" note is emitted exactly when the timestamp
field is missing or empty — not when it is present and unparseable. -/
theorem C6_amended :
    (∀ (now : PyDateTime) (ts : Option String), ValidDT now →
      ∃ dt, ValidDT dt ∧ _normalize_timestamp now ts = isoformat dt) ∧
      (∀ (now : PyDateTime) (s : String),
        tryFormats now tsFormats (String.mk (bracketStrip (pyStrip s).data)) = none →
        findDate10 (String.mk (bracketStrip (pyStrip s).data)).data = none →
        findTime (String.mk (bracketStrip (pyStrip s).data)).data = none →
        _normalize_timestamp now (some s) = isoformat now) ∧
      (∀ e : RawEvent, pyIn "Timestamp inferred" (_generate_notes e) = true ↔
        strFalsy e.timestamp = true) := by
  refine ⟨fun now ts hnow => normalize_timestamp_valid now ts hnow, ?_, ?_⟩
  · intro now s h1 h2 h3
    unfold _normalize_timestamp
    dsimp only
    rw [h1, h2, h3]
  · intro e
    unfold _generate_notes
    cases hts : strFalsy e.timestamp <;>
      cases hj : (_extract_joint e == "UNKNOWN") <;>
        cases hf : (match _extract_force_value e with
          | none => true
          | some f => pyBeq f (pyOfInt 0)) <;>
      simp only [hts, hj, hf, if_true, if_false, Bool.false_eq_true, Bool.true_eq_false] <;>
      decide

/-- C6 amended witness at concrete inputs. -/
theorem C6_amended_witness :
    (∃ dt, ValidDT dt ∧ _normalize_timestamp nowSample (some "07:30") = isoformat dt) ∧
      _normalize_timestamp nowSample (some "birthday party") = isoformat nowSample ∧
      (pyIn "Timestamp inferred" (_generate_notes rawBadTimestamp) = true ↔
        strFalsy rawBadTimestamp.timestamp = true) :=
  ⟨C6_amended.1 nowSample (some "07:30") (by decide),
    C6_amended.2.1 nowSample "birthday party" (by decide) (by decide) (by decide),
    C6_amended.2.2 rawBadTimestamp⟩
